import Mathlib

/-!
Verification development for the Job-Fit & Content-Selection Engine of the
AIJobHelper repository (`src/backend/services/`).  Python text values are
embedded as lists of characters (`Str`), Python floats as rationals (`ℚ`),
and the presence test `re.search(pattern, text)` of each fixed regular
expression as an executable matcher over a small pattern algebra (`Pat`).
-/

namespace AIJob

/-- Text values (Python `str`) are embedded as lists of characters. -/
abbrev Str := List Char

/-- ASCII lowering, matching `str.lower()` on the ASCII texts involved. -/
def lowerStr (s : Str) : Str := s.map Char.toLower

/-- Whitespace class of Python `str.strip` / regex `\s` (ASCII range). -/
def isSpaceC (c : Char) : Bool :=
  c == ' ' || c == '\t' || c == '\n' || c == '\r' || c == '\x0b' || c == '\x0c'

/-- Word character of regex `\b` boundaries: `[A-Za-z0-9_]`. -/
def isWordC (c : Char) : Bool := c.isAlphanum || c == '_'

/-- Does `s` start with `l` (Python `str.startswith`, regex literal match)? -/
def startsWithStr : Str → Str → Bool
  | _, [] => true
  | [], _ :: _ => false
  | c :: cs, d :: ds => c == d && startsWithStr cs ds

/-- Substring containment, Python `needle in hay`. -/
def containsStr (hay needle : Str) : Bool :=
  match hay with
  | [] => needle.isEmpty
  | _ :: t => startsWithStr hay needle || containsStr t needle

/-- Fuelled helper for `countOcc`; each step shortens the haystack by at
least one character, so fuel `hay.length` is always sufficient. -/
def countOccF : Nat → Str → Str → Nat
  | _, hay, [] => hay.length + 1
  | 0, _, _ :: _ => 0
  | _ + 1, [], _ :: _ => 0
  | fuel + 1, c :: t, n :: ns =>
    if startsWithStr (c :: t) (n :: ns) then
      1 + countOccF fuel (List.drop ns.length t) (n :: ns)
    else
      countOccF fuel t (n :: ns)

/-- Count of non-overlapping occurrences, Python `hay.count(needle)`. -/
def countOcc (hay needle : Str) : Nat := countOccF hay.length hay needle

/-- Python `str.strip()`: drop leading and trailing whitespace. -/
def stripStr (s : Str) : Str :=
  ((s.dropWhile isSpaceC).reverse.dropWhile isSpaceC).reverse

/-- Fuelled helper for `splitWs`; fuel `s.length` always suffices. -/
def splitWsF : Nat → Str → List Str
  | _, [] => []
  | 0, _ :: _ => []
  | fuel + 1, c :: t =>
    if isSpaceC c then splitWsF fuel t
    else
      let w := (c :: t).takeWhile (fun d => !isSpaceC d)
      w :: splitWsF fuel ((c :: t).dropWhile (fun d => !isSpaceC d))

/-- Python `str.split()` with no argument: split on whitespace runs. -/
def splitWs (s : Str) : List Str := splitWsF s.length s

/-- Python `str.lstrip(ch)`: drop every leading occurrence of one character. -/
def lstripChar (ch : Char) (s : Str) : Str := s.dropWhile (fun c => c == ch)

/-- Python `str.strip(chars)`: drop leading and trailing characters from a set. -/
def stripChars (chars : Str) (s : Str) : Str :=
  ((s.dropWhile (fun c => chars.contains c)).reverse.dropWhile
    (fun c => chars.contains c)).reverse

/-! ### A small pattern algebra

Each fixed regular expression used by the services is compiled by hand into a
sequence of tokens; `searchPat` decides whether the pattern matches anywhere in
the text, which is exactly the information `re.search(...)`/`re.findall(...)`
presence tests extract in the source. -/

/-- Tokens of the pattern algebra. -/
inductive Pat where
  /-- a literal string -/
  | lit : Str → Pat
  /-- pattern `\d` (exactly one digit) -/
  | digit : Pat
  /-- pattern `\d+` -/
  | digits : Pat
  /-- pattern `[\d,]+` -/
  | digitsCommas : Pat
  /-- pattern `\s*` -/
  | spaces : Pat
  /-- one character from a set, e.g. `[KMB]` -/
  | oneOf : Str → Pat
  /-- an optional literal, e.g. `\$?` -/
  | optLit : Str → Pat
  /-- an optional character from a set, e.g. `[KMB]?` -/
  | optOneOf : Str → Pat
  /-- one of several literal alternatives -/
  | alts : List Str → Pat
deriving Repr

/-- All remainders of the input after the token consumes a prefix. -/
def patNexts : Pat → Str → List Str
  | .lit l, s => if startsWithStr s l then [s.drop l.length] else []
  | .digit, [] => []
  | .digit, c :: t => if c.isDigit then [t] else []
  | .digits, s =>
    let n := (s.takeWhile Char.isDigit).length
    (List.range n).map (fun i => s.drop (i + 1))
  | .digitsCommas, s =>
    let n := (s.takeWhile (fun c => c.isDigit || c == ',')).length
    (List.range n).map (fun i => s.drop (i + 1))
  | .spaces, s =>
    let n := (s.takeWhile isSpaceC).length
    (List.range (n + 1)).map (fun i => s.drop i)
  | .oneOf _, [] => []
  | .oneOf cs, c :: t => if cs.contains c then [t] else []
  | .optLit l, s => s :: (if startsWithStr s l then [s.drop l.length] else [])
  | .optOneOf cs, s =>
    s :: (match s with
          | [] => []
          | c :: t => if cs.contains c then [t] else [])
  | .alts ls, s => (ls.filter (fun l => startsWithStr s l)).map (fun l => s.drop l.length)

/-- Does the token sequence match a prefix of `s` (with backtracking)? -/
def matchSeq : List Pat → Str → Bool
  | [], _ => true
  | p :: ps, s => (patNexts p s).any (fun r => matchSeq ps r)

/-- All suffixes of a string, longest first. -/
def suffixesOf : Str → List Str
  | [] => [[]]
  | c :: t => (c :: t) :: suffixesOf t

/-- Presence test `re.search`: does the token sequence match at some position of `s`? -/
def searchPat (ps : List Pat) (s : Str) : Bool :=
  (suffixesOf s).any (fun suf => matchSeq ps suf)

/-- Any of several patterns matches somewhere in `s`. -/
def searchAnyPat (pats : List (List Pat)) (s : Str) : Bool :=
  pats.any (fun ps => searchPat ps s)

/-- Matcher for `re.search` of `\b<needle>\b`, for a literal `needle` beginning and ending
with word characters: match with a word boundary on both sides.  The helper
carries the character preceding the current position. -/
def wordBoundedAux (needle : Str) : Option Char → Str → Bool
  | _, [] => needle.isEmpty
  | prev, c :: t =>
    let prevOk := match prev with
      | none => true
      | some p => !isWordC p
    let afterOk := fun (rest : Str) =>
      match rest with
      | [] => true
      | d :: _ => !isWordC d
    (prevOk && startsWithStr (c :: t) needle && afterOk ((c :: t).drop needle.length))
      || wordBoundedAux needle (some c) t

/-- Word-bounded containment of a literal. -/
def containsWordBounded (needle hay : Str) : Bool :=
  wordBoundedAux needle none hay

/-- Matcher for `re.search` of `\b\d+\b`: a digit run flanked by word boundaries. -/
def plainNumAux : Option Char → Str → Bool
  | _, [] => false
  | prev, c :: t =>
    let prevOk := match prev with
      | none => true
      | some p => !isWordC p
    let afterRun := (c :: t).dropWhile Char.isDigit
    let afterOk := match afterRun with
      | [] => true
      | d :: _ => !isWordC d
    (c.isDigit && prevOk && afterOk) || plainNumAux (some c) t

/-- Presence of a standalone number (`\b\d+\b`). -/
def hasPlainNumber (s : Str) : Bool := plainNumAux none s

/-! ### Rounding and sorting helpers -/

/-- Python `round(x, 2)` embedded as rounding to the nearest hundredth. -/
def round2 (q : ℚ) : ℚ := (round (100 * q) : ℤ) / 100

/-- Python `round(x, 1)` embedded as rounding to the nearest tenth. -/
def round1 (q : ℚ) : ℚ := (round (10 * q) : ℤ) / 10

/-- Insert into a descending-sorted list, before any element of equal key:
this reproduces the stability of Python `sorted(..., reverse=True)`. -/
def insDesc (key : α → ℚ) (x : α) : List α → List α
  | [] => [x]
  | y :: ys => if key x < key y then y :: insDesc key x ys else x :: y :: ys

/-- Stable descending sort by a rational key (Python `sorted(..., reverse=True)`). -/
def sortDescBy (key : α → ℚ) : List α → List α
  | [] => []
  | x :: xs => insDesc key x (sortDescBy key xs)

/-- Python `max(xs, key=f)`: the first element attaining the maximal key
(later elements replace the current best only when strictly greater). -/
def pyMaxBy [LinearOrder β] (key : α → β) (x : α) : List α → α
  | [] => x
  | y :: ys => if key x < key y then pyMaxBy key y ys else pyMaxBy key x ys

/-! ### Small helpers for building Python strings -/

/-- Convert a list of Lean string literals into embedded texts. -/
def strs (l : List String) : List Str := l.map String.toList

/-- Literal pattern token from a Lean string literal. -/
def plit (s : String) : Pat := .lit s.toList

/-- Python `sep.join(parts)`. -/
def joinSep (sep : String) : List String → String
  | [] => ""
  | [x] => x
  | x :: y :: t => x ++ sep ++ joinSep sep (y :: t)

/-- Helper of `titleStr`, carrying whether the previous character was a letter. -/
def titleAux : Bool → Str → Str
  | _, [] => []
  | prevAlpha, c :: t =>
    if c.isAlpha then
      (if prevAlpha then c.toLower else c.toUpper) :: titleAux true t
    else
      c :: titleAux false t

/-- Python `str.title()` on the alphabetic words it is applied to. -/
def titleStr (s : String) : String := String.mk (titleAux false s.toList)

/-- Python `str.replace(a, b)` for single characters, on a Lean string. -/
def replaceCharS (a b : Char) (s : String) : String :=
  String.mk (s.toList.map (fun c => if c == a then b else c))

/-! ## `bullet_framework.py` -/

/-- Company stage enum (`CompanyStage` in `bullet_framework.py`). -/
inductive CompanyStage where
  | early_stage
  | growth_stage
  | enterprise
deriving DecidableEq, Repr

namespace BulletFramework

def MIN_CHARS : Nat := 240

def MAX_CHARS : Nat := 260

def OPTIMAL_CHARS : Nat := 250

/-- Flattened `ACTION_VERBS` table (all categories, in source order). -/
def ACTION_VERBS_ALL : List Str := strs
  ["Led", "Directed", "Championed", "Spearheaded", "Orchestrated",
   "Mentored", "Guided", "Supervised", "Managed", "Oversaw",
   "Achieved", "Attained", "Exceeded", "Surpassed", "Delivered",
   "Earned", "Won", "Secured", "Accomplished", "Realized",
   "Developed", "Created", "Designed", "Built", "Established",
   "Initiated", "Launched", "Pioneered", "Introduced", "Invented",
   "Optimized", "Enhanced", "Improved", "Streamlined", "Transformed",
   "Revamped", "Modernized", "Upgraded", "Refined", "Elevated",
   "Analyzed", "Evaluated", "Assessed", "Researched", "Investigated",
   "Examined", "Identified", "Discovered", "Diagnosed", "Mapped",
   "Presented", "Negotiated", "Collaborated", "Coordinated", "Facilitated",
   "Advocated", "Influenced", "Persuaded", "Communicated", "Articulated",
   "Implemented", "Engineered", "Automated", "Deployed", "Integrated",
   "Architected", "Configured", "Programmed", "Coded", "Debugged"]

/-- Compiled `CONTEXT_PATTERNS` (searched on the lowercased bullet; the
`Fortune \d+` pattern keeps its capital letter exactly as in the source). -/
def CONTEXT_PATTERNS : List (List Pat) :=
  [[plit "cross-functional"], [plit "enterprise-wide"], [plit "global"],
   [plit "company-wide"], [plit "department"],
   [plit "team of ", .digits], [.digits, plit " stakeholder"],
   [plit "Fortune ", .digits], [plit "startup"], [plit "scale-up"]]

/-- Compiled `METHOD_PATTERNS`. -/
def METHOD_PATTERNS : List (List Pat) :=
  [[plit "using"], [plit "leveraging"], [plit "applying"], [plit "through"],
   [plit "via"], [plit "with"], [plit "by implementing"], [plit "utilizing"],
   [plit "employing"], [plit "adopting"]]

/-- Compiled `METRIC_PATTERNS` (searched on the raw bullet). -/
def METRIC_PATTERNS : List (List Pat) :=
  [[.digits, plit "%"],
   [plit "$", .digitsCommas, .optOneOf "KMB".toList],
   [.digitsCommas, .spaces, .alts (strs ["users", "customers", "clients"])],
   [.digits, plit "x"],
   [plit "reduced by ", .digits],
   [plit "increased by ", .digits],
   [plit "saved ", .optLit "$".toList, .digitsCommas],
   [.digits, .spaces, .alts (strs ["hours", "days", "weeks", "months"])],
   [plit "from ", .digits, plit " to ", .digits]]

/-- Compiled `IMPACT_PATTERNS`. -/
def IMPACT_PATTERNS : List (List Pat) :=
  [[plit "for ", .digits],
   [plit "across ", .digits, plit " ", .alts (strs ["teams", "departments", "regions"])],
   [plit "serving ", .digits], [plit "impacting ", .digits],
   [plit "enabling ", .digits], [plit "supporting ", .digits]]

/-- Compiled `BUSINESS_OUTCOME_PATTERNS`. -/
def BUSINESS_OUTCOME_PATTERNS : List (List Pat) :=
  [[plit "improving"], [plit "reducing costs"], [plit "increasing revenue"],
   [plit "enhancing efficiency"], [plit "accelerating"], [plit "driving growth"],
   [plit "enabling scale"], [plit "ensuring compliance"], [plit "mitigating risk"],
   [plit "competitive advantage"]]

/-- Spinning keywords for the early stage. -/
def SPINNING_KEYWORDS_early : List Str := strs
  ["agile", "scrappy", "MVP", "iterate", "pivot", "bootstrap",
   "lean", "rapid", "prototype", "validate", "hustle", "wear many hats"]

/-- Spinning keywords for the growth stage. -/
def SPINNING_KEYWORDS_growth : List Str := strs
  ["scaled", "10x", "100x", "growth", "expansion", "hypergrowth",
   "Series", "OKRs", "KPIs", "metrics-driven", "data-driven"]

/-- Spinning keywords for the enterprise stage. -/
def SPINNING_KEYWORDS_enterprise : List Str := strs
  ["Fortune 500", "enterprise-wide", "global", "compliance",
   "governance", "stakeholder", "cross-functional", "executive"]

/-- Embeds `_check_action`: the first word of the bullet, with `,.:;`
stripped, must be one of the action verbs. -/
def check_action (bullet : Str) : Bool :=
  let first := (splitWs bullet).headD []
  ACTION_VERBS_ALL.contains (stripChars ",.:;".toList first)

/-- Embeds `_check_context`. -/
def check_context (bullet : Str) : Bool :=
  searchAnyPat CONTEXT_PATTERNS (lowerStr bullet)

/-- Embeds `_check_method`. -/
def check_method (bullet : Str) : Bool :=
  searchAnyPat METHOD_PATTERNS (lowerStr bullet)

/-- Embeds `_check_result` (metric patterns on the raw bullet). -/
def check_result (bullet : Str) : Bool :=
  searchAnyPat METRIC_PATTERNS bullet

/-- Embeds `_check_impact`. -/
def check_impact (bullet : Str) : Bool :=
  searchAnyPat IMPACT_PATTERNS (lowerStr bullet)

/-- Embeds `_check_business_outcome`. -/
def check_business_outcome (bullet : Str) : Bool :=
  searchAnyPat BUSINESS_OUTCOME_PATTERNS (lowerStr bullet)

/-- Embeds `_check_metric` (same patterns as `_check_result`). -/
def check_metric (bullet : Str) : Bool :=
  searchAnyPat METRIC_PATTERNS bullet

/-- Result record of `analyze_bullet` (the `suggestions` strings of the
source, which no claim touches, are not embedded). -/
structure BulletAnalysis where
  original : Str
  character_count : Nat
  has_action : Bool
  has_context : Bool
  has_method : Bool
  has_result : Bool
  has_impact : Bool
  has_business_outcome : Bool
  has_metric : Bool
  score : ℚ
deriving DecidableEq, Repr

/-- Embeds `BulletFramework.analyze_bullet`. -/
def analyze_bullet (bullet : Str) : BulletAnalysis :=
  let b := stripStr bullet
  let cc := b.length
  let ha := check_action b
  let hc := check_context b
  let hm := check_method b
  let hr := check_result b
  let hi := check_impact b
  let hb := check_business_outcome b
  let hmet := check_metric b
  let points : Nat := ([ha, hc, hm, hr, hi, hb].filter (fun x => x)).length
  let base_score : ℚ := (points : ℚ) / 6 * 70
  let char_score : ℚ :=
    if MIN_CHARS ≤ cc ∧ cc ≤ MAX_CHARS then 20
    else if cc < MIN_CHARS then max 0 (20 - ((MIN_CHARS - cc : Nat) : ℚ) * (1/2))
    else max 0 (20 - ((cc - MAX_CHARS : Nat) : ℚ) * (1/2))
  let metric_score : ℚ := if hmet then 10 else 0
  let total := min 100 (base_score + char_score + metric_score)
  ⟨b, cc, ha, hc, hm, hr, hi, hb, hmet, round1 total⟩

/-- Keyword hits of one stage keyword list in the lowercased text
(`scores[stage] += 1` per contained keyword). -/
def stage_keyword_score (kws : List Str) (jdLower : Str) : Nat :=
  (kws.filter (fun kw => containsStr jdLower (lowerStr kw))).length

/-- Bonus of 3 when any of the extra heuristic terms occurs. -/
def stage_bonus (terms : List String) (jdLower : Str) : Nat :=
  if (strs terms).any (fun t => containsStr jdLower t) then 3 else 0

/-- Scores of `detect_company_stage`, in the insertion order of the Python
`scores` dict: early, growth, enterprise. -/
def detect_stage_scores (jd : Str) : Nat × Nat × Nat :=
  let l := lowerStr jd
  (stage_keyword_score SPINNING_KEYWORDS_early l +
     stage_bonus ["seed", "pre-seed", "angel", "small team"] l,
   stage_keyword_score SPINNING_KEYWORDS_growth l +
     stage_bonus ["series a", "series b", "series c", "hypergrowth"] l,
   stage_keyword_score SPINNING_KEYWORDS_enterprise l +
     stage_bonus ["fortune", "global", "multinational", "corporate"] l)

/-- Embeds `BulletFramework.detect_company_stage`: `max(scores, key=scores.get)`
over the dict whose insertion order is early, growth, enterprise. -/
def detect_company_stage (jd : Str) : CompanyStage :=
  let s := detect_stage_scores jd
  (pyMaxBy (fun p => p.2) (CompanyStage.early_stage, s.1)
     [(CompanyStage.growth_stage, s.2.1), (CompanyStage.enterprise, s.2.2)]).1

/-- Raw occurrence count of one area (`jd_lower.count(keyword.lower())` summed
over the keyword list). -/
def area_mentions (jdl : Str) (kws : List Str) : Nat :=
  (kws.map (fun kw => countOcc jdl (lowerStr kw))).sum

/-- Embeds `BulletFramework.calculate_competency_weights`: raw occurrence
counts per area, normalisation by the total with `round(_, 2)` (or the equal
split when nothing matched), then a stable descending sort by weight. -/
def calculate_competency_weights (jd : Str) (areas : List (String × List Str)) :
    List (String × ℚ) :=
  let jdl := lowerStr jd
  let pre := areas.map (fun a => (a.1, area_mentions jdl a.2))
  let total : Nat := (pre.map (fun p => p.2)).sum
  let ws :=
    if 0 < total then pre.map (fun p => (p.1, round2 ((p.2 : ℚ) / (total : ℚ))))
    else pre.map (fun p => (p.1, (1 : ℚ) / (areas.length : ℚ)))
  sortDescBy (fun p => p.2) ws

end BulletFramework

namespace MetricDiversifier

/-- Compiled `METRIC_TYPES` patterns in dict insertion order; the
`re.IGNORECASE` flag is embedded by matching lowercase literals against the
lowercased text. -/
def METRIC_TYPES : List (String × List Pat) :=
  [("time",
    [.digits, .spaces,
     .alts (strs ["min", "mins", "minute", "hour", "hrs", "day", "days", "week",
                  "weeks", "month", "months", "year", "years", "hr", "ms", "sec"])]),
   ("volume",
    [.digits, .optOneOf "kmb".toList, .optLit "+".toList, .spaces,
     .alts (strs ["users", "customers", "transactions", "sessions", "pageviews",
                  "records", "requests", "queries", "applications", "submissions"])]),
   ("frequency",
    [.digits, .optLit "+".toList, .spaces,
     .alts (strs ["per", "weekly", "monthly", "daily", "times", "×", "x"])]),
   ("scope",
    [.digits, .optLit "+".toList, .spaces,
     .alts (strs ["markets", "countries", "teams", "states", "cities",
                  "departments", "industries", "segments", "regions"])]),
   ("quality",
    [.digits, plit "%", .spaces,
     .alts (strs ["up from", "down from", "increase", "decrease", "improvement",
                  "retention", "accuracy", "satisfaction", "precision", "recall",
                  "conversion"])])]

/-- Embeds `MetricDiversifier.classify_metric`: the first type in table order
whose pattern matches; `none` when no pattern matches. -/
def classify_metric (bullet : Str) : Option String :=
  ((METRIC_TYPES.find? (fun p => searchPat p.2 (lowerStr bullet))).map (fun p => p.1))

/-- Increment the count of a type in an insertion-ordered association list
(`defaultdict(int)` preserving first-appearance order). -/
def bump_count (t : String) : List (String × Nat) → List (String × Nat)
  | [] => [(t, 1)]
  | (u, n) :: rest => if u = t then (u, n + 1) :: rest else (u, n) :: bump_count t rest

/-- Scan of `check_diversity`: builds the distribution and the classified
list (1-based indices) in one pass. -/
def diversity_scan :
    Nat → List Str → List (String × Nat) → List (Nat × String) →
      List (String × Nat) × List (Nat × String)
  | _, [], dist, classified => (dist, classified)
  | i, b :: rest, dist, classified =>
    match classify_metric b with
    | some t => diversity_scan (i + 1) rest (bump_count t dist) (classified ++ [(i + 1, t)])
    | none => diversity_scan (i + 1) rest dist classified

/-- Result record of `check_diversity` (bullet snippets of the source's
`classified_bullets` entries are reduced to index and type). -/
structure DiversityReport where
  distribution : List (String × Nat)
  diversity_score : ℚ
  total_bullets : Nat
  classified_bullets : List (Nat × String)
  warnings : List String
  recommendations : List String
  all_types_present : Bool
deriving DecidableEq, Repr

/-- Embeds `MetricDiversifier.check_diversity`.  The missing-type set
difference, whose iteration order Python leaves unspecified, is listed in
table order (only its emptiness and membership are meaningful). -/
def check_diversity (bullets : List Str) : DiversityReport :=
  let scan := diversity_scan 0 bullets [] []
  let dist := scan.1
  let over := dist.filter (fun p => 2 < p.2)
  let warnings := over.map (fun p =>
    "⚠️ " ++ titleStr p.1 ++ " metrics appear " ++ toString p.2 ++
      " times (recommended max: 2)")
  let recs1 := over.map (fun p =>
    "Consider varying some " ++ p.1 ++ " metrics to other types")
  let missing := (METRIC_TYPES.map (fun p => p.1)).filter
    (fun t => !((dist.map (fun p => p.1)).contains t))
  let recs := recs1 ++
    (if missing.isEmpty then []
     else ["Consider adding " ++ joinSep ", " missing ++ " metrics for better diversity"])
  ⟨dist, round1 ((dist.length : ℚ) / 5 * 100), bullets.length, scan.2,
    warnings, recs, missing.isEmpty⟩

end MetricDiversifier

namespace ActionVerbChecker

/-- Embeds `ActionVerbChecker.extract_action_verb`. -/
def extract_action_verb (bullet : Str) : Option Str :=
  let cleaned := stripStr (lstripChar '*' (lstripChar '-' (lstripChar '•' (stripStr bullet))))
  match splitWs cleaned with
  | [] => none
  | w :: _ => some (stripChars ".,;:".toList w)

/-- Has some element of the list a later duplicate? -/
def hasDupStr : List Str → Bool
  | [] => false
  | x :: t => t.contains x || hasDupStr t

/-- Embeds the `all_unique` field of `ActionVerbChecker.check_uniqueness`
(the only field the verification gate reads): no extracted verb repeats. -/
def all_unique (bullets : List Str) : Bool :=
  !hasDupStr (bullets.filterMap extract_action_verb)

end ActionVerbChecker


/-! ## `bullet_validator.py` -/

namespace BulletValidator

def MIN_CHARS : Nat := 240

def MAX_CHARS : Nat := 260

def IDEAL_CHARS : Nat := 250

/-- Strong action verbs table. -/
def STRONG_VERBS : List Str := strs
  ["led", "built", "designed", "developed", "created", "established",
   "launched", "implemented", "architected", "drove", "spearheaded",
   "orchestrated", "pioneered", "transformed", "optimized", "scaled",
   "increased", "reduced", "improved", "accelerated", "delivered",
   "achieved", "exceeded", "generated", "streamlined", "automated",
   "coordinated", "facilitated", "managed", "directed", "executed"]

/-- Weak verbs table. -/
def WEAK_VERBS : List Str := strs
  ["helped", "worked on", "responsible for", "assisted with",
   "participated in", "contributed to", "involved in", "dealt with",
   "handled", "did", "made", "got", "had"]

/-- Generic phrases stoplist. -/
def GENERIC_PHRASES : List Str := strs
  ["various tasks", "day-to-day", "as needed", "duties included",
   "worked closely", "team player", "hard worker", "detail-oriented",
   "self-starter", "go-getter", "think outside the box"]

/-- The `SixPointBullet` schema: the six required text parts (the optional
metadata fields, which validation never reads, are not embedded). -/
structure SixPointBullet where
  action : Str
  context : Str
  method : Str
  result : Str
  impact : Str
  outcome : Str
deriving DecidableEq, Repr

/-- Fuelled helper for `condenseWs`; fuel `s.length` always suffices. -/
def condenseWsF : Nat → Str → Str
  | _, [] => []
  | 0, s => s
  | fuel + 1, c :: t =>
    if isSpaceC c then ' ' :: condenseWsF fuel (t.dropWhile isSpaceC)
    else c :: condenseWsF fuel t

/-- Embeds `re.sub(r"\s+", " ", text)`: collapse whitespace runs to one space. -/
def condenseWs (s : Str) : Str := condenseWsF s.length s

/-- Embeds `re.sub(r"\s+,", ",", text)` on space-condensed text: drop the
single space before each comma. -/
def dropSpaceComma : Str → Str
  | [] => []
  | ' ' :: ',' :: t => ',' :: dropSpaceComma t
  | c :: t => c :: dropSpaceComma t

/-- Embeds `BulletValidator._assemble_bullet`: join the six parts with the
source's punctuation (non-empty parts only), collapse whitespace, strip, and
remove spaces before commas. -/
def assemble_bullet (b : SixPointBullet) : Str :=
  let t0 := b.action ++ " ".toList ++ b.context
  let t1 := if b.method.isEmpty then t0 else t0 ++ ", ".toList ++ b.method
  let t2 := if b.result.isEmpty then t1 else t1 ++ ", ".toList ++ b.result
  let t3 := if b.impact.isEmpty then t2 else t2 ++ ", ".toList ++ b.impact
  let t4 := if b.outcome.isEmpty then t3 else t3 ++ " ".toList ++ b.outcome
  dropSpaceComma (stripStr (condenseWs t4))

/-- Presence of `\d+(?:\.\d+)?%`; the optional group is expanded into the two
alternative token sequences. -/
def percentage_present (s : Str) : Bool :=
  searchAnyPat [[.digits, plit "%"], [.digits, plit ".", .digits, plit "%"]] s

/-- Presence of `\$\d+(?:,\d{3})*(?:\.\d{2})?[KMB]?`: a match exists exactly
when the mandatory prefix `\$\d+` matches (every following group is optional). -/
def dollar_present (s : Str) : Bool :=
  searchPat [plit "$", .digits] s

/-- Presence of `\d+(?:,\d{3})+`: a match exists exactly when `\d+,\d{3}`
matches (one iteration of the group suffices, and more are allowed). -/
def comma_number_present (s : Str) : Bool :=
  searchPat [.digits, plit ",", .digit, .digit, .digit] s

/-- Presence of `\d+(?:\.\d+)?[KMB](?:\+)?`; the optional fraction group is
expanded and the trailing optional `\+` is dropped (presence-preserving). -/
def scaled_number_present (s : Str) : Bool :=
  searchAnyPat
    [[.digits, .oneOf "KMB".toList], [.digits, plit ".", .digits, .oneOf "KMB".toList]] s

/-- Presence of `\d+:\d+|\d+x` with `re.IGNORECASE` (so `x` or `X`). -/
def ratio_present (s : Str) : Bool :=
  searchAnyPat [[.digits, plit ":", .digits], [.digits, .oneOf "xX".toList]] s

/-- One of the five metric pattern categories of `_detect_metrics` is present. -/
def metric_category_present (s : Str) : Bool :=
  percentage_present s || dollar_present s || comma_number_present s ||
    scaled_number_present s || ratio_present s

/-- Embeds the `has_metrics` field of `BulletValidator._detect_metrics`: the
five categories fill the `metrics` list, and only when they found nothing the
plain-number backup (`\b\d+\b`) is consulted. -/
def detect_metrics_has (s : Str) : Bool :=
  if metric_category_present s then true else hasPlainNumber s

/-- Embeds `BulletValidator._check_all_six_points`: each of the six parts must
be non-empty after stripping. -/
def check_all_six_points (b : SixPointBullet) : Bool :=
  !(stripStr b.action).isEmpty && !(stripStr b.context).isEmpty &&
    !(stripStr b.method).isEmpty && !(stripStr b.result).isEmpty &&
    !(stripStr b.impact).isEmpty && !(stripStr b.outcome).isEmpty

/-- Embeds the Boolean result of `BulletValidator._check_character_count`. -/
def check_character_count (cc : Nat) : Bool :=
  decide (MIN_CHARS ≤ cc) && decide (cc ≤ MAX_CHARS)

/-- Embeds `BulletValidator._check_action_verb` (its Boolean result). -/
def check_action_verb (action : Str) : Bool :=
  if action.isEmpty then false
  else
    let al := stripStr (lowerStr action)
    let fw := (splitWs al).headD []
    if WEAK_VERBS.any (fun w => containsStr al w) then false
    else if STRONG_VERBS.contains fw then true
    else true

/-- Embeds `BulletValidator._check_generic_language`. -/
def check_generic_language (text : Str) : Bool :=
  !(GENERIC_PHRASES.any (fun p => containsStr (lowerStr text) p))

/-- Embeds `BulletValidator._check_result_has_metrics`. -/
def check_result_has_metrics (result : Str) : Bool :=
  if result.isEmpty then false else detect_metrics_has result

/-- Embeds `BulletValidator._calculate_quality_score`. -/
def calculate_quality_score (cc : Nat) (has_metrics all_six strong_verb no_generic
    result_metrics : Bool) : Nat :=
  let s1 := if all_six then 30 else 0
  let s2 := if has_metrics then 25 else 0
  let s3 := if result_metrics then 20 else 0
  let s4 := if MIN_CHARS ≤ cc ∧ cc ≤ MAX_CHARS then
      10 + (if Nat.dist cc IDEAL_CHARS ≤ 5 then 5 else 0)
    else 0
  let s5 := if strong_verb then 5 else 0
  let s6 := if no_generic then 5 else 0
  min 100 (s1 + s2 + s3 + s4 + s5 + s6)

/-- Result record of `validate_bullet` (the error, warning, suggestion and
auto-fix strings, which no claim touches, are not embedded). -/
structure BulletValidationResult where
  is_valid : Bool
  character_count : Nat
  has_metrics : Bool
  has_all_six_points : Bool
  has_strong_verb : Bool
  no_generic_language : Bool
  quality_score : Nat
deriving DecidableEq, Repr

/-- Embeds `BulletValidator.validate_bullet`. -/
def validate_bullet (b : SixPointBullet) : BulletValidationResult :=
  let full := assemble_bullet b
  let cc := full.length
  let all_six := check_all_six_points b
  let cc_valid := check_character_count cc
  let has_metrics := detect_metrics_has full
  let strong := check_action_verb b.action
  let no_generic := check_generic_language full
  let result_metrics := check_result_has_metrics b.result
  let q := calculate_quality_score cc has_metrics all_six strong no_generic result_metrics
  let valid := all_six && cc_valid && has_metrics && decide (70 ≤ q)
  ⟨valid, cc, has_metrics, all_six, strong, no_generic, q⟩

end BulletValidator

/-! ## `jd_assessor.py` -/

/-- Python `" ".join(parts)` on embedded texts. -/
def joinStrs (sep : Str) : List Str → Str
  | [] => []
  | [x] => x
  | x :: y :: t => x ++ sep ++ joinStrs sep (y :: t)

namespace JDAssessor

/-- Keywords of the technical_skills area. -/
def TECH_KEYWORDS : List Str := strs
  ["python", "javascript", "java", "sql", "react", "node", "aws",
   "docker", "kubernetes", "api", "database", "cloud", "machine learning",
   "data analysis", "software development", "programming", "coding"]

/-- Keywords of the leadership area. -/
def LEADERSHIP_KEYWORDS : List Str := strs
  ["lead", "manage", "mentor", "coach", "direct", "oversee",
   "team", "cross-functional", "stakeholder", "influence"]

/-- Keywords of the product_strategy area. -/
def PRODUCT_KEYWORDS : List Str := strs
  ["product", "roadmap", "strategy", "vision", "prioritize",
   "user research", "market analysis", "competitive", "growth"]

/-- Keywords of the communication area. -/
def COMMUNICATION_KEYWORDS : List Str := strs
  ["communicate", "present", "collaborate", "negotiate",
   "stakeholder", "documentation", "report", "articulate"]

/-- Keywords of the execution area. -/
def EXECUTION_KEYWORDS : List Str := strs
  ["deliver", "execute", "implement", "launch", "ship",
   "agile", "scrum", "project management", "deadline", "on-time"]

/-- The `COMPETENCY_AREAS` table: name, base weight and keywords. -/
def COMPETENCY_AREAS : List (String × ℚ × List Str) :=
  [("technical_skills", 1/4, TECH_KEYWORDS),
   ("leadership", 1/5, LEADERSHIP_KEYWORDS),
   ("product_strategy", 1/5, PRODUCT_KEYWORDS),
   ("communication", 3/20, COMMUNICATION_KEYWORDS),
   ("execution", 1/5, EXECUTION_KEYWORDS)]

/-- The `CompetencyMatch` result record. -/
structure CompetencyMatch where
  name : String
  weight : ℚ
  match_score : ℚ
  matched_keywords : List Str
  missing_keywords : List Str
  recommendations : List String
deriving DecidableEq, Repr

/-- Embeds `JDAssessor._assess_competency` for one area. -/
def assess_competency (name : String) (weight : ℚ) (keywords : List Str)
    (jdLower : Str) (candidate_skills : List Str) (candidate_experience : Str) :
    CompetencyMatch :=
  let jd_mentioned := keywords.filter (fun kw => containsStr jdLower (lowerStr kw))
  if jd_mentioned.isEmpty then ⟨name, 0, 100, [], [], []⟩
  else
    let adjusted := weight * ((jd_mentioned.length : ℚ) / (keywords.length : ℚ))
    let candidate := joinStrs " ".toList candidate_skills ++ " ".toList ++ candidate_experience
    let matched := jd_mentioned.filter (fun kw => containsStr candidate (lowerStr kw))
    let missing := jd_mentioned.filter (fun kw => !containsStr candidate (lowerStr kw))
    let ms : ℚ := (matched.length : ℚ) / (jd_mentioned.length : ℚ) * 100
    let recs :=
      (if missing.isEmpty then []
       else ["Consider highlighting experience with: " ++
               joinSep ", " ((missing.take 3).map String.mk)]) ++
      (if ms < 50 then ["Strengthen " ++ replaceCharS '_' ' ' name ++ " section in resume"]
       else [])
    ⟨name, adjusted, round1 ms, matched, missing, recs⟩

/-- The competency matches the `assess` loop collects over the fixed table. -/
def competency_matches_for (jd : Str) (skills : List Str) (expText : Str) :
    List CompetencyMatch :=
  COMPETENCY_AREAS.map (fun a => assess_competency a.1 a.2.1 a.2.2 (lowerStr jd) skills expText)

/-- Embeds `JDAssessor._calculate_interest_level`: base 7, plus one per
high-interest keyword contained in the lowercased posting, capped at 10 (the
`resume_data` parameter is unused by the source). -/
def calculate_interest_level (jdLower : Str) : ℤ :=
  let interest : ℤ := 7 +
    ((strs ["remote", "leadership", "0-to-1", "founding", "growth"]).filter
      (fun kw => containsStr jdLower kw)).length
  min 10 interest

/-- Embeds `JDAssessor._determine_decision`. -/
def determine_decision (fit_score interest_level : ℤ) : String :=
  if 85 ≤ fit_score ∧ 8 ≤ interest_level then "PROCEED (High Priority)"
  else if 75 ≤ fit_score ∨ 7 ≤ interest_level then "PRESENT TO USER (Medium Priority)"
  else "ARCHIVE (Low Priority)"

/-- The decision `JDAssessor.assess` returns for a posting, as a function of
the fit score it computed: `assess` always takes the interest level from
`_calculate_interest_level` on the lowercased posting. -/
def assess_decision (jd : Str) (fit_score : ℤ) : String :=
  determine_decision fit_score (calculate_interest_level (lowerStr jd))

end JDAssessor


/-! ## `verification_service.py` -/

/-- Python `str.split(ch)` for a single separator character (keeps empties). -/
def splitChar (ch : Char) : Str → List Str
  | [] => [[]]
  | c :: t =>
    if c == ch then [] :: splitChar ch t
    else
      match splitChar ch t with
      | [] => [[c]]
      | w :: ws => (c :: w) :: ws

/-- A single apostrophe, for building messages that quote characters. -/
def aposS : String := String.mk [Char.ofNat 39]

namespace ResumeVerifier

/-- The `VerificationStatus` enum. -/
inductive VStatus where
  | passed
  | failed
  | warning
deriving DecidableEq, Repr

/-- One `VerificationResult` check (the `details` dict, always absent on the
resume path, is not embedded). -/
structure CheckResult where
  name : String
  status : VStatus
  message : String
deriving DecidableEq, Repr

/-- One experience entry of the resume payload as the verifier reads it:
`bullets` as a list of texts, `description` as one text (the payload is a
loosely typed dict in the source; this fixes the shapes the checks
distinguish). -/
structure ExperienceJob where
  bullets : Option (List Str) := none
  description : Option Str := none
deriving DecidableEq, Repr

/-- The resume payload fields `ResumeVerifier` reads.  An absent dict key and
a falsy value are both embedded as `none`/empty, matching the
`f not in data or not data[f]` tests of the source. -/
structure Resume where
  name : Option Str := none
  email : Option Str := none
  summary : Option Str := none
  education : Option Str := none
  experience : Option (List ExperienceJob) := none
  skills : Option (List Str) := none
deriving DecidableEq, Repr

/-- Falsiness of an optional text field. -/
def optMissing : Option Str → Bool
  | none => true
  | some s => s.isEmpty

/-- Falsiness of an optional list field. -/
def listMissing {α : Type} : Option (List α) → Bool
  | none => true
  | some l => l.isEmpty

/-- Embeds `_verify_sections`. -/
def verify_sections (r : Resume) : CheckResult :=
  let missing :=
    (if optMissing r.summary then ["summary"] else []) ++
    (if listMissing r.experience then ["experience"] else []) ++
    (if optMissing r.education then ["education"] else []) ++
    (if listMissing r.skills then ["skills"] else [])
  if missing.isEmpty then ⟨"sections", .passed, "All required sections present"⟩
  else if missing = ["summary"] then ⟨"sections", .warning, "Summary missing"⟩
  else ⟨"sections", .failed, "Missing: " ++ joinSep ", " missing⟩

/-- Embeds `_verify_contact`. -/
def verify_contact (r : Resume) : CheckResult :=
  let missing :=
    (if optMissing r.name then ["name"] else []) ++
    (if optMissing r.email then ["email"] else [])
  if missing.isEmpty then ⟨"contact", .passed, "Contact info complete"⟩
  else ⟨"contact", .failed, "Missing: " ++ joinSep ", " missing⟩

/-- Embeds `_verify_summary_length`. -/
def verify_summary_length (r : Resume) : CheckResult :=
  let s := stripStr (r.summary.getD [])
  if s.isEmpty then ⟨"summary_length", .warning, "Summary missing"⟩
  else if 360 ≤ s.length ∧ s.length ≤ 380 then
    ⟨"summary_length", .passed, toString s.length ++ " chars"⟩
  else ⟨"summary_length", .warning, toString s.length ++ " chars (target 360-380)"⟩

/-- Presence of `(\d+%|\$[\d,]+|\d+\s*(?:k|m|b))` with `re.IGNORECASE`. -/
def summary_metrics_present (s : Str) : Bool :=
  searchAnyPat
    [[.digits, plit "%"], [plit "$", .digitsCommas], [.digits, .spaces, .oneOf "kmb".toList]]
    (lowerStr s)

/-- Embeds `_verify_summary_metrics`. -/
def verify_summary_metrics (r : Resume) : CheckResult :=
  let s := stripStr (r.summary.getD [])
  if s.isEmpty then ⟨"summary_metrics", .warning, "Summary missing"⟩
  else if summary_metrics_present s then
    ⟨"summary_metrics", .warning, "Remove metrics from summary (save for bullets)"⟩
  else ⟨"summary_metrics", .passed, "No metrics in summary"⟩

/-- Embeds `_extract_bullets`: the `bullets` list when present, otherwise the
`description` text split on newlines; entries stripped, empties dropped. -/
def extract_bullets (j : ExperienceJob) : List Str :=
  match j.bullets with
  | some l => (l.map stripStr).filter (fun b => !b.isEmpty)
  | none =>
    match j.description with
    | some s => ((splitChar (Char.ofNat 10) s).map stripStr).filter (fun b => !b.isEmpty)
    | none => []

/-- Per-role check of `_verify_bullets`. -/
def verify_bullets_one (i : Nat) (j : ExperienceJob) : CheckResult :=
  let bullets := extract_bullets j
  if bullets.isEmpty then ⟨"bullets_" ++ toString i, .warning, "0 bullets (target 2-5)"⟩
  else
    let issues := (bullets.filter (fun b => b.length < 240 || 260 < b.length)).length
    if issues = 0 then ⟨"bullets_" ++ toString i, .passed, toString bullets.length ++ " bullets"⟩
    else
      ⟨"bullets_" ++ toString i, .warning,
        toString bullets.length ++ " bullets, " ++ toString issues ++ " issues"⟩

/-- Embeds `_verify_bullets`. -/
def verify_bullets (r : Resume) : List CheckResult :=
  let results := (r.experience.getD []).enum.map (fun p => verify_bullets_one p.1 p.2)
  if results.isEmpty then [⟨"bullets", .warning, "No experience"⟩] else results

/-- Embeds `_verify_bullet_counts`. -/
def verify_bullet_counts (r : Resume) : CheckResult :=
  let counts := (r.experience.getD []).map (fun j => (extract_bullets j).length)
  let total := counts.sum
  let issues :=
    (counts.enum.filter (fun p => p.2 < 2 || 5 < p.2)).map (fun p =>
      "Role " ++ toString (p.1 + 1) ++ ": " ++ toString p.2 ++ " bullets (target 2-5)") ++
    (if total ≠ 13 then ["Total bullets: " ++ toString total ++ " (target 13)"] else [])
  if issues.isEmpty then ⟨"bullet_counts", .passed, "Bullet counts in range"⟩
  else ⟨"bullet_counts", .warning, joinSep "; " issues⟩

/-- Embeds `_collect_all_bullets`. -/
def collect_all_bullets (r : Resume) : List Str :=
  ((r.experience.getD []).map extract_bullets).flatten

/-- Embeds `_verify_metric_diversity`. -/
def verify_metric_diversity (r : Resume) : CheckResult :=
  let bullets := collect_all_bullets r
  if bullets.isEmpty then ⟨"metric_diversity", .warning, "No bullets to analyze"⟩
  else
    let analysis := MetricDiversifier.check_diversity bullets
    if !analysis.warnings.isEmpty then
      ⟨"metric_diversity", .warning, joinSep "; " analysis.warnings⟩
    else if !analysis.all_types_present then
      ⟨"metric_diversity", .warning, "Add more metric types for diversity"⟩
    else ⟨"metric_diversity", .passed, "Metric diversity looks good"⟩

/-- Embeds `_verify_action_verb_uniqueness`. -/
def verify_action_verbs (r : Resume) : CheckResult :=
  let bullets := collect_all_bullets r
  if bullets.isEmpty then ⟨"action_verbs", .warning, "No bullets to analyze"⟩
  else if !(ActionVerbChecker.all_unique bullets) then
    ⟨"action_verbs", .warning, "Duplicate action verbs found"⟩
  else ⟨"action_verbs", .passed, "Action verbs are unique"⟩

/-- The soft-skill stoplist of `_verify_skills`. -/
def SOFT_SKILLS : List Str := strs
  ["stakeholder management", "leadership", "communication",
   "collaboration", "teamwork", "problem solving", "scrappy",
   "fast-paced", "critical thinking", "gtm strategy"]

/-- Embeds `_verify_skills` (skills given as a list; the source also accepts
a comma-joined string and splits it). -/
def verify_skills (r : Resume) : CheckResult :=
  let skills := r.skills.getD []
  if skills.isEmpty then ⟨"skills", .failed, "No skills listed"⟩
  else
    let found := skills.filter (fun s => SOFT_SKILLS.contains (lowerStr s))
    if !found.isEmpty then
      ⟨"skills", .warning,
        "Remove soft skills: " ++ joinSep ", " (found.map String.mk) ++ ". Hard skills only."⟩
    else if skills.length < 5 then
      ⟨"skills", .warning, "Only " ++ toString skills.length ++ " skills"⟩
    else ⟨"skills", .passed, toString skills.length ++ " skills"⟩

/-- One job triggers the dash warning of `_verify_bullet_symbols`: the source
reads `description` first and only a string value can match (its fallbacks, a
bullets list or the empty string, never do). -/
def bullet_symbols_bad (j : ExperienceJob) : Bool :=
  match j.description with
  | some s =>
    startsWithStr (stripStr s) "-".toList ||
      containsStr s [Char.ofNat 10, Char.ofNat 45]
  | none => false

/-- Embeds `_verify_bullet_symbols`. -/
def verify_bullet_symbols (r : Resume) : CheckResult :=
  if (r.experience.getD []).any bullet_symbols_bad then
    ⟨"bullet_symbols", .warning,
      "Use " ++ aposS ++ "•" ++ aposS ++ " instead of " ++ aposS ++ "-" ++ aposS ++ " for bullets"⟩
  else ⟨"bullet_symbols", .passed, "Correct bullet symbols used"⟩

/-- The ordered check list `ResumeVerifier.verify` assembles. -/
def resume_checks (r : Resume) : List CheckResult :=
  [verify_sections r, verify_contact r, verify_summary_length r, verify_summary_metrics r] ++
    verify_bullets r ++
    [verify_bullet_counts r, verify_metric_diversity r, verify_action_verbs r,
     verify_skills r, verify_bullet_symbols r]

/-- The score `(passed / total) * 100` the gate computes before rounding. -/
def score_of_checks (checks : List CheckResult) : ℚ :=
  if checks.isEmpty then 0
  else ((checks.filter (fun c => c.status == VStatus.passed)).length : ℚ) /
    (checks.length : ℚ) * 100

/-- The `VerificationReport` record. -/
structure VerificationReport where
  document_type : String
  overall_status : VStatus
  score : ℚ
  checks : List CheckResult
  suggestions : List String
  auto_retry_recommended : Bool
deriving DecidableEq, Repr

/-- Embeds `ResumeVerifier.verify`. -/
def verify (r : Resume) : VerificationReport :=
  let checks := resume_checks r
  let score := score_of_checks checks
  let failed_critical := checks.any (fun c => c.status == VStatus.failed)
  let overall := if failed_critical then VStatus.failed
    else if 80 ≤ score then VStatus.passed else VStatus.warning
  let suggestions := (checks.filter (fun c => !(c.status == VStatus.passed))).map
    (fun c => "Fix " ++ c.name ++ ": " ++ c.message)
  ⟨"resume", overall, round1 score, checks, suggestions, failed_critical⟩

end ResumeVerifier

/-! ## `spinning_service.py` (stage suggestion) -/

namespace SpinningStrategy

/-- Early-stage dictionary verbs. -/
def DICT_early_verbs : List Str := strs
  ["shipped", "validated", "tested", "pivoted", "launched",
   "iterated", "experimented", "prototyped", "bootstrapped"]

/-- Early-stage dictionary keywords. -/
def DICT_early_keywords : List Str := strs
  ["MVP", "product-market fit", "iterations", "experiments",
   "rapid deployment", "lean", "agile", "sprint", "velocity"]

/-- Growth-stage dictionary verbs. -/
def DICT_growth_verbs : List Str := strs
  ["scaled", "optimized", "increased", "expanded", "automated",
   "streamlined", "accelerated", "grew", "multiplied"]

/-- Growth-stage dictionary keywords. -/
def DICT_growth_keywords : List Str := strs
  ["metrics", "KPIs", "growth", "efficiency", "scaling",
   "revenue", "ARR", "conversion", "retention", "funnel"]

/-- Enterprise dictionary verbs. -/
def DICT_enterprise_verbs : List Str := strs
  ["coordinated", "aligned", "ensured", "managed", "governed",
   "facilitated", "led", "orchestrated", "standardized"]

/-- Enterprise dictionary keywords. -/
def DICT_enterprise_keywords : List Str := strs
  ["stakeholders", "compliance", "governance", "enterprise",
   "cross-functional", "strategic alignment", "risk management",
   "best practices", "frameworks"]

/-- Keyword hits are worth 2, verb hits 1 (`suggest_spinning`). -/
def stage_score (keywords verbs : List Str) (jdl : Str) : Nat :=
  2 * (keywords.filter (fun kw => containsStr jdl (lowerStr kw))).length +
    (verbs.filter (fun v => containsStr jdl (lowerStr v))).length

/-- Bonus of 5 when one of the heuristic terms occurs. -/
def suggest_bonus (terms : List String) (jdl : Str) : Nat :=
  if (strs terms).any (fun t => containsStr jdl t) then 5 else 0

/-- Scores of `suggest_spinning` in dict insertion order: early, growth,
enterprise. -/
def suggest_scores (jd : Str) : Nat × Nat × Nat :=
  let l := lowerStr jd
  (stage_score DICT_early_keywords DICT_early_verbs l +
     suggest_bonus ["startup", "early", "seed", "pre-revenue"] l,
   stage_score DICT_growth_keywords DICT_growth_verbs l +
     suggest_bonus ["series a", "series b", "growth", "scaling"] l,
   stage_score DICT_enterprise_keywords DICT_enterprise_verbs l +
     suggest_bonus ["fortune 500", "enterprise", "global", "compliance"] l)

/-- Embeds `SpinningStrategy.suggest_spinning` (its unused `text` parameter is
dropped): `max(scores, key=scores.get)` over the dict whose insertion order is
early, growth, enterprise. -/
def suggest_spinning (jd : Str) : CompanyStage :=
  let s := suggest_scores jd
  (pyMaxBy (fun p => p.2) (CompanyStage.early_stage, s.1)
     [(CompanyStage.growth_stage, s.2.1), (CompanyStage.enterprise, s.2.2)]).1

end SpinningStrategy

/-! ## `bullet_library.py` -/

namespace BulletLibrary

/-- One library bullet as passed to `select_for_job` (tags given as a list;
the source also accepts a comma-joined string and splits it). -/
structure InputBullet where
  id : Option Str := none
  text : Str := []
  tags : List Str := []
  competency : Option String := none
deriving DecidableEq, Repr

/-- A normalised bullet (output of `_normalize_bullets`). -/
structure NormBullet where
  id : Str
  text : Str
  tags : List Str
  competency : Option String
deriving DecidableEq, Repr

/-- Embeds `_normalize_bullets`: strip the text, drop empty ones, lowercase
tags, and default a falsy id to the first 50 characters of the text. -/
def normalize_bullets (bullets : List InputBullet) : List NormBullet :=
  bullets.filterMap (fun b =>
    let t := stripStr b.text
    if t.isEmpty then none
    else
      let i := match b.id with
        | some i => if i.isEmpty then t.take 50 else i
        | none => t.take 50
      some ⟨i, t, b.tags.map lowerStr, b.competency⟩)

/-- Embeds `_compute_competency_weights`: per-area keyword-presence counts,
`base_weight * mentions / max(len(keywords), 1)`, with the base weights as
fallback when nothing matched anywhere.  These weights are not normalised. -/
def compute_competency_weights (jd : Str) : List (String × ℚ) :=
  let jdl := lowerStr jd
  let ws := JDAssessor.COMPETENCY_AREAS.map (fun a =>
    let mentions := (a.2.2.filter (fun kw => containsStr jdl (lowerStr kw))).length
    (a.1, if 0 < mentions then a.2.1 * ((mentions : ℚ) / (max a.2.2.length 1 : ℚ)) else 0))
  if (ws.map (fun p => p.2)).sum = 0 then
    JDAssessor.COMPETENCY_AREAS.map (fun a => (a.1, a.2.1))
  else ws

/-- Add `v` to the entry of key `k` in an association list. -/
def add_to_key (k : String) (v : Nat) : List (String × Nat) → List (String × Nat)
  | [] => []
  | (u, n) :: rest => if u = k then (u, n + v) :: rest else (u, n) :: add_to_key k v rest

/-- Embeds `_calculate_distribution`: per-area `int((w / total_w) * total)`,
entries with zero allocation dropped, and the whole remainder added to the
first area attaining the largest allocation. -/
def calculate_distribution (weights : List (String × ℚ)) (total : Nat) :
    List (String × Nat) :=
  let weighted := weights.filter (fun p => 0 < p.2)
  if weighted.isEmpty then [("general", total)]
  else
    let tw := (weighted.map (fun p => p.2)).sum
    let distribution :=
      (weighted.map (fun p => (p.1, (⌊p.2 / tw * (total : ℚ)⌋).toNat))).filter
        (fun p => 0 < p.2)
    let remaining := total - (distribution.map (fun p => p.2)).sum
    if 0 < remaining ∧ !distribution.isEmpty then
      add_to_key (pyMaxBy (fun p => p.2) (distribution.headD ("", 0)) distribution.tail).1
        remaining distribution
    else distribution

/-- Keyword table lookup `COMPETENCY_AREAS.get(area, {}).get("keywords", [])`. -/
def keywords_of_area (area : String) : List Str :=
  match JDAssessor.COMPETENCY_AREAS.find? (fun a => a.1 = area) with
  | some a => a.2.2
  | none => []

/-- Embeds `_keyword_score`: word-bounded keyword matches in the lowercased
text plus half a point per tag hit, as a percentage of the keyword count. -/
def keyword_score (text : Str) (tags : List Str) (keywords : List Str) :
    ℚ × List Str :=
  let tl := lowerStr text
  let matched := keywords.filter (fun kw => containsWordBounded (lowerStr kw) tl)
  let kwsLower := keywords.map lowerStr
  let tag_hits := tags.filter (fun tag => kwsLower.contains tag)
  let raw : ℚ := (matched.length : ℚ) + (1/2) * (tag_hits.length : ℚ)
  if keywords.isEmpty then (0, matched)
  else (round1 (min 100 (raw / (keywords.length : ℚ) * 100)), matched)

/-- A scored bullet (output of `_score_bullets`). -/
structure ScoredBullet where
  id : Str
  text : Str
  tags : List Str
  competency : String
  analysis_score : ℚ
  area_scores : List (String × ℚ)
  area_matches : List (String × List Str)
  best_area : String
  best_score : ℚ
deriving DecidableEq, Repr

/-- Embeds `_best_area`: the first area attaining the maximal score, or
`general` with score 0 for an empty dict. -/
def best_area_of (area_scores : List (String × ℚ)) : String × ℚ :=
  match area_scores with
  | [] => ("general", 0)
  | x :: rest => pyMaxBy (fun p => p.2) x rest

/-- Embeds `_score_bullets`. -/
def score_bullets (bullets : List NormBullet) (weights : List (String × ℚ)) :
    List ScoredBullet :=
  bullets.map (fun b =>
    let analysis := BulletFramework.analyze_bullet b.text
    let scored := weights.map (fun p =>
      let ks := keyword_score b.text b.tags (keywords_of_area p.1)
      let boost : ℚ := if b.competency = some p.1 then 10 else 0
      let combined := ks.1 * (6/10) + analysis.score * (4/10) + boost
      ((p.1, round1 (min 100 combined)), (p.1, ks.2)))
    let area_scores := scored.map (fun q => q.1)
    let best := best_area_of area_scores
    let comp := match b.competency with
      | some c => if c = "" then best.1 else c
      | none => best.1
    ⟨b.id, b.text, b.tags, comp, analysis.score, area_scores,
      scored.map (fun q => q.2), best.1, best.2⟩)

/-- A selected bullet (one entry of the `selected` list). -/
structure SelectedBullet where
  id : Str
  text : Str
  competency : String
  score : ℚ
  analysis_score : ℚ
  matched_keywords : List Str
deriving DecidableEq, Repr

/-- Score lookup `b["area_scores"].get(area, 0)`. -/
def lookupScore (area : String) (l : List (String × ℚ)) : ℚ :=
  match l.find? (fun p => p.1 = area) with
  | some p => p.2
  | none => 0

/-- Match lookup `b.get("area_matches", {}).get(area, [])`. -/
def lookupMatches (area : String) (l : List (String × List Str)) : List Str :=
  match l.find? (fun p => p.1 = area) with
  | some p => p.2
  | none => []

/-- The selected entry built in the distribution phase. -/
def mk_selected (area : String) (b : ScoredBullet) : SelectedBullet :=
  ⟨b.id, b.text, area, lookupScore area b.area_scores, b.analysis_score,
    lookupMatches area b.area_matches⟩

/-- The per-area selection loop: skip already selected ids, append otherwise,
and break once `picked >= target` (checked after appending, as in the source). -/
def pick_area (area : String) (target : Nat) :
    List ScoredBullet → Nat → List SelectedBullet → List Str →
      List SelectedBullet × List Str
  | [], _, sel, ids => (sel, ids)
  | b :: rest, picked, sel, ids =>
    if ids.contains b.id then pick_area area target rest picked sel ids
    else
      let sel2 := sel ++ [mk_selected area b]
      let ids2 := ids ++ [b.id]
      if target ≤ picked + 1 then (sel2, ids2)
      else pick_area area target rest (picked + 1) sel2 ids2

/-- Candidate ordering per area (`sorted(..., reverse=True)`, stable). -/
def area_candidates (area : String) (scored : List ScoredBullet) :
    List ScoredBullet :=
  if area = "general" then sortDescBy (fun b => b.best_score) scored
  else sortDescBy (fun b => lookupScore area b.area_scores) scored

/-- The backfill entry (keyed by the best area). -/
def backfill_entry (b : ScoredBullet) : SelectedBullet :=
  ⟨b.id, b.text, b.best_area, b.best_score, b.analysis_score,
    lookupMatches b.best_area b.area_matches⟩

/-- The backfill loop of `_select_by_distribution`: its candidate list is
computed once before the loop, and the loop appends ids without re-checking
membership (it only adds them to `selected_ids`), exactly as the source does. -/
def backfill (total : Nat) :
    List ScoredBullet → List SelectedBullet → List Str → List SelectedBullet
  | [], sel, _ => sel
  | b :: rest, sel, ids =>
    if total ≤ sel.length then sel
    else backfill total rest (sel ++ [backfill_entry b]) (ids ++ [b.id])

/-- Embeds `_select_by_distribution`. -/
def select_by_distribution (scored : List ScoredBullet)
    (distribution : List (String × Nat)) (total : Nat) : List SelectedBullet :=
  let phase1 := distribution.foldl
    (fun st p => pick_area p.1 p.2 (area_candidates p.1 scored) 0 st.1 st.2)
    (([] : List SelectedBullet), ([] : List Str))
  if phase1.1.length < total then
    backfill total
      (sortDescBy (fun b => b.best_score) (scored.filter (fun b => !phase1.2.contains b.id)))
      phase1.1 phase1.2
  else phase1.1

/-- The `select_for_job` result record. -/
structure SelectionResult where
  selected_bullets : List SelectedBullet
  distribution : List (String × Nat)
  total_requested : Nat
  total_selected : Nat
  recommendations : List String
deriving DecidableEq, Repr

/-- Embeds `BulletLibrary.select_for_job`. -/
def select_for_job (bullets : List InputBullet) (jd : Str) (count : Nat) :
    SelectionResult :=
  let cleaned := normalize_bullets bullets
  if cleaned.isEmpty then
    ⟨[], [], count, 0, ["Add bullets to your library before selecting for a job."]⟩
  else
    let weights := compute_competency_weights jd
    let distribution := calculate_distribution weights count
    let selected := select_by_distribution (score_bullets cleaned weights) distribution count
    let recs := if selected.length < count then
        ["Only " ++ toString selected.length ++ " bullets available. Add more bullets to reach " ++
          toString count ++ "."]
      else []
    ⟨selected, distribution, count, selected.length, recs⟩

end BulletLibrary


/-! ## General helper lemmas -/

theorem insDesc_perm (key : α → ℚ) (x : α) (l : List α) :
    (insDesc key x l).Perm (x :: l) := by
  induction l with
  | nil => simp [insDesc]
  | cons y ys ih =>
    by_cases h : key x < key y
    · simp only [insDesc, if_pos h]
      exact ((ih.cons y).trans (List.Perm.swap x y ys))
    · simp [insDesc, if_neg h]

theorem sortDescBy_perm (key : α → ℚ) (l : List α) :
    (sortDescBy key l).Perm l := by
  induction l with
  | nil => simp [sortDescBy]
  | cons x xs ih =>
    exact (insDesc_perm key x (sortDescBy key xs)).trans (ih.cons x)


theorem round_eq_of (q : ℚ) (z : ℤ) (h1 : (z : ℚ) ≤ q + 1/2) (h2 : q + 1/2 < z + 1) :
    round q = z := by
  rw [round_eq]
  exact Int.floor_eq_iff.mpr ⟨h1, h2⟩

/-! ## Claim theorems -/

/-- C5: the decision function returns PROCEED exactly when fit_score ≥ 85 and
interest_level ≥ 8; otherwise PRESENT TO USER exactly when fit_score ≥ 75 or
interest_level ≥ 7; otherwise ARCHIVE — the proceed test is evaluated first,
so an input satisfying both conditions is classified PROCEED. -/
theorem determine_decision_spec (fit il : ℤ) :
    (JDAssessor.determine_decision fit il = "PROCEED (High Priority)" ↔
      85 ≤ fit ∧ 8 ≤ il) ∧
    (JDAssessor.determine_decision fit il = "PRESENT TO USER (Medium Priority)" ↔
      ¬(85 ≤ fit ∧ 8 ≤ il) ∧ (75 ≤ fit ∨ 7 ≤ il)) ∧
    (JDAssessor.determine_decision fit il = "ARCHIVE (Low Priority)" ↔
      ¬(85 ≤ fit ∧ 8 ≤ il) ∧ ¬(75 ≤ fit ∨ 7 ≤ il)) := by
  have d1 : ("PROCEED (High Priority)" : String) ≠ "PRESENT TO USER (Medium Priority)" := by
    decide
  have d2 : ("PROCEED (High Priority)" : String) ≠ "ARCHIVE (Low Priority)" := by decide
  have d3 : ("PRESENT TO USER (Medium Priority)" : String) ≠ "PROCEED (High Priority)" := by
    decide
  have d4 : ("PRESENT TO USER (Medium Priority)" : String) ≠ "ARCHIVE (Low Priority)" := by
    decide
  have d5 : ("ARCHIVE (Low Priority)" : String) ≠ "PROCEED (High Priority)" := by decide
  have d6 : ("ARCHIVE (Low Priority)" : String) ≠ "PRESENT TO USER (Medium Priority)" := by
    decide
  unfold JDAssessor.determine_decision
  split_ifs with h1 h2 <;> simp_all [d1, d2, d3, d4, d5, d6]

/-- C10: the interest level `assess` computes always lies in [7, 10] (baseline
7, increment-only, capped at 10), so the `interest_level ≥ 7` disjunct of the
present condition always holds and the decision is never ARCHIVE. -/
theorem interest_level_no_archive (jd : Str) (fit : ℤ) :
    7 ≤ JDAssessor.calculate_interest_level (lowerStr jd) ∧
    JDAssessor.calculate_interest_level (lowerStr jd) ≤ 10 ∧
    JDAssessor.assess_decision jd fit ≠ "ARCHIVE (Low Priority)" := by
  have h7 : 7 ≤ JDAssessor.calculate_interest_level (lowerStr jd) := by
    unfold JDAssessor.calculate_interest_level
    refine le_min (by norm_num) ?_
    have : (0 : ℤ) ≤ (((strs ["remote", "leadership", "0-to-1", "founding", "growth"]).filter
        (fun kw => containsStr (lowerStr jd) kw)).length : ℤ) := Int.natCast_nonneg _
    omega
  have h10 : JDAssessor.calculate_interest_level (lowerStr jd) ≤ 10 := by
    unfold JDAssessor.calculate_interest_level
    exact min_le_left _ _
  refine ⟨h7, h10, ?_⟩
  unfold JDAssessor.assess_decision JDAssessor.determine_decision
  split_ifs with h1 h2
  · decide
  · decide
  · exact absurd (Or.inr h7) h2

/-- C2: a SixPointBullet in which any of the six parts is empty or
whitespace-only is never reported valid by `validate_bullet`, regardless of
character count, metrics or quality score. -/
theorem validate_bullet_empty_part_invalid (b : BulletValidator.SixPointBullet)
    (h : (stripStr b.action).isEmpty = true ∨ (stripStr b.context).isEmpty = true ∨
         (stripStr b.method).isEmpty = true ∨ (stripStr b.result).isEmpty = true ∨
         (stripStr b.impact).isEmpty = true ∨ (stripStr b.outcome).isEmpty = true) :
    (BulletValidator.validate_bullet b).is_valid = false := by
  have hs : BulletValidator.check_all_six_points b = false := by
    unfold BulletValidator.check_all_six_points
    rcases h with h | h | h | h | h | h <;> simp [h]
  unfold BulletValidator.validate_bullet
  simp [hs]

/-- Witness for C2: a bullet with a whitespace-only action part is invalid. -/
theorem validate_bullet_empty_part_invalid_witness :
    ((stripStr " ".toList).isEmpty = true ∨ (stripStr "c".toList).isEmpty = true ∨
     (stripStr "m".toList).isEmpty = true ∨ (stripStr "r".toList).isEmpty = true ∨
     (stripStr "i".toList).isEmpty = true ∨ (stripStr "o".toList).isEmpty = true) ∧
    (BulletValidator.validate_bullet
      ⟨" ".toList, "c".toList, "m".toList, "r".toList, "i".toList, "o".toList⟩).is_valid =
      false :=
  ⟨Or.inl (by decide),
   validate_bullet_empty_part_invalid _ (Or.inl (by decide))⟩

/-- C6 counterexample: the text contains none of the five metric pattern
categories, yet `_detect_metrics` reports `has_metrics = true` through its
plain-number backup. -/
theorem detect_metrics_fallback_cex :
    BulletValidator.metric_category_present "Managed 7 projects".toList = false ∧
    BulletValidator.detect_metrics_has "Managed 7 projects".toList = true := by
  constructor <;> decide

/-- C6 (amended): `has_metrics` is true iff one of the five pattern categories
(percentage, currency, comma-grouped number, scaled suffix, ratio) is present
or, as a backup when all five found nothing, a standalone plain number is. -/
theorem detect_metrics_has_iff (s : Str) :
    BulletValidator.detect_metrics_has s = true ↔
      BulletValidator.percentage_present s = true ∨
      BulletValidator.dollar_present s = true ∨
      BulletValidator.comma_number_present s = true ∨
      BulletValidator.scaled_number_present s = true ∨
      BulletValidator.ratio_present s = true ∨
      hasPlainNumber s = true := by
  unfold BulletValidator.detect_metrics_has
  by_cases hc : BulletValidator.metric_category_present s = true
  · have hd := hc
    unfold BulletValidator.metric_category_present at hd
    simp only [Bool.or_eq_true] at hd
    simp only [hc, if_true, true_iff]
    tauto
  · have hd := hc
    unfold BulletValidator.metric_category_present at hd
    simp only [Bool.or_eq_true, not_or] at hd
    obtain ⟨⟨⟨⟨h1, h2⟩, h3⟩, h4⟩, h5⟩ := hd
    simp only [Bool.not_eq_true] at h1 h2 h3 h4 h5
    simp [hc, h1, h2, h3, h4, h5]


/-- Helper: Python `max` over the three-stage score dict picks the first stage
attaining the maximum, in insertion order early, growth, enterprise. -/
theorem pyMax3_stage (a b c : Nat) :
    (pyMaxBy (fun p : CompanyStage × Nat => p.2) (CompanyStage.early_stage, a)
        [(CompanyStage.growth_stage, b), (CompanyStage.enterprise, c)]).1 =
      (if b ≤ a ∧ c ≤ a then CompanyStage.early_stage
       else if a < b ∧ c ≤ b then CompanyStage.growth_stage
       else CompanyStage.enterprise) := by
  simp only [pyMaxBy]
  split_ifs <;> first | rfl | (exfalso; omega)

/-- C7 counterexample: on the empty job text all three stage scores tie at 0,
and both classifiers return the early stage, not the growth stage the claimed
tie-break order growth > early > enterprise would demand. -/
theorem stage_tie_break_cex :
    BulletFramework.detect_stage_scores [] = (0, 0, 0) ∧
    BulletFramework.detect_company_stage [] = CompanyStage.early_stage ∧
    SpinningStrategy.suggest_scores [] = (0, 0, 0) ∧
    SpinningStrategy.suggest_spinning [] = CompanyStage.early_stage :=
  ⟨by decide, by decide, by decide, by decide⟩

/-- C7 (amended): both stage classifiers return the stage with the highest
cumulative vocabulary score, with ties broken in the fixed priority order
early > growth > enterprise (the Python dict iteration order). -/
theorem stage_highest_score_spec (jd : Str) :
    (BulletFramework.detect_company_stage jd =
      (if (BulletFramework.detect_stage_scores jd).2.1 ≤ (BulletFramework.detect_stage_scores jd).1 ∧
          (BulletFramework.detect_stage_scores jd).2.2 ≤ (BulletFramework.detect_stage_scores jd).1
       then CompanyStage.early_stage
       else if (BulletFramework.detect_stage_scores jd).1 < (BulletFramework.detect_stage_scores jd).2.1 ∧
          (BulletFramework.detect_stage_scores jd).2.2 ≤ (BulletFramework.detect_stage_scores jd).2.1
       then CompanyStage.growth_stage
       else CompanyStage.enterprise)) ∧
    (SpinningStrategy.suggest_spinning jd =
      (if (SpinningStrategy.suggest_scores jd).2.1 ≤ (SpinningStrategy.suggest_scores jd).1 ∧
          (SpinningStrategy.suggest_scores jd).2.2 ≤ (SpinningStrategy.suggest_scores jd).1
       then CompanyStage.early_stage
       else if (SpinningStrategy.suggest_scores jd).1 < (SpinningStrategy.suggest_scores jd).2.1 ∧
          (SpinningStrategy.suggest_scores jd).2.2 ≤ (SpinningStrategy.suggest_scores jd).2.1
       then CompanyStage.growth_stage
       else CompanyStage.enterprise)) := by
  constructor
  · unfold BulletFramework.detect_company_stage
    exact pyMax3_stage _ _ _
  · unfold SpinningStrategy.suggest_spinning
    exact pyMax3_stage _ _ _

/-- Helper for C4: a missing or empty email makes the contact check fail. -/
theorem verify_contact_failed (r : ResumeVerifier.Resume)
    (h : ResumeVerifier.optMissing r.email = true) :
    (ResumeVerifier.verify_contact r).status = ResumeVerifier.VStatus.failed := by
  unfold ResumeVerifier.verify_contact
  cases hn : ResumeVerifier.optMissing r.name <;> simp [h, hn]

/-- Helper for C4: the contact check is part of the gate's check list. -/
theorem verify_contact_mem (r : ResumeVerifier.Resume) :
    ResumeVerifier.verify_contact r ∈ ResumeVerifier.resume_checks r := by
  unfold ResumeVerifier.resume_checks
  simp

/-- C4: the gate's overall_status is failed iff some individual check failed
(in particular a missing email forces it through the failed contact check);
otherwise it is passed iff the computed score `(passed / total) * 100` is at
least 80 and warning iff it is below 80; and auto_retry_recommended holds iff
the overall status is failed. -/
theorem verify_gate_spec (r : ResumeVerifier.Resume) :
    ((ResumeVerifier.verify r).overall_status = ResumeVerifier.VStatus.failed ↔
      ∃ c ∈ ResumeVerifier.resume_checks r, c.status = ResumeVerifier.VStatus.failed) ∧
    ((ResumeVerifier.verify r).overall_status = ResumeVerifier.VStatus.passed ↔
      (∀ c ∈ ResumeVerifier.resume_checks r, c.status ≠ ResumeVerifier.VStatus.failed) ∧
      80 ≤ ResumeVerifier.score_of_checks (ResumeVerifier.resume_checks r)) ∧
    ((ResumeVerifier.verify r).overall_status = ResumeVerifier.VStatus.warning ↔
      (∀ c ∈ ResumeVerifier.resume_checks r, c.status ≠ ResumeVerifier.VStatus.failed) ∧
      ResumeVerifier.score_of_checks (ResumeVerifier.resume_checks r) < 80) ∧
    (ResumeVerifier.optMissing r.email = true →
      (ResumeVerifier.verify r).overall_status = ResumeVerifier.VStatus.failed) ∧
    ((ResumeVerifier.verify r).auto_retry_recommended = true ↔
      (ResumeVerifier.verify r).overall_status = ResumeVerifier.VStatus.failed) := by
  have hov : (ResumeVerifier.verify r).overall_status =
      (if (ResumeVerifier.resume_checks r).any
            (fun c => c.status == ResumeVerifier.VStatus.failed) then
         ResumeVerifier.VStatus.failed
       else if 80 ≤ ResumeVerifier.score_of_checks (ResumeVerifier.resume_checks r) then
         ResumeVerifier.VStatus.passed
       else ResumeVerifier.VStatus.warning) := rfl
  have har : (ResumeVerifier.verify r).auto_retry_recommended =
      (ResumeVerifier.resume_checks r).any
        (fun c => c.status == ResumeVerifier.VStatus.failed) := rfl
  have hany : ((ResumeVerifier.resume_checks r).any
      (fun c => c.status == ResumeVerifier.VStatus.failed) = true) ↔
      ∃ c ∈ ResumeVerifier.resume_checks r, c.status = ResumeVerifier.VStatus.failed := by
    simp [List.any_eq_true]
  cases hA : (ResumeVerifier.resume_checks r).any
      (fun c => c.status == ResumeVerifier.VStatus.failed) with
  | true =>
    rw [hA] at hov har
    simp only [if_true] at hov
    have hex := hany.mp hA
    have hnall : ¬(∀ c ∈ ResumeVerifier.resume_checks r,
        c.status ≠ ResumeVerifier.VStatus.failed) := by
      obtain ⟨c, hc, hst⟩ := hex
      exact fun hall => hall c hc hst
    refine ⟨?_, ?_, ?_, ?_, ?_⟩
    · simp [hov, hex]
    · simp [hov, hnall]
    · simp [hov, hnall]
    · intro _; exact hov
    · simp [har, hov]
  | false =>
    rw [hA] at hov har
    simp only [Bool.false_eq_true, if_false] at hov
    have hall : ∀ c ∈ ResumeVerifier.resume_checks r,
        c.status ≠ ResumeVerifier.VStatus.failed := by
      intro cc hcc hst
      exact absurd (hany.mpr ⟨cc, hcc, hst⟩) (by simp [hA])
    have hnex : ¬∃ c ∈ ResumeVerifier.resume_checks r,
        c.status = ResumeVerifier.VStatus.failed := by
      intro hex
      exact absurd (hany.mpr hex) (by simp [hA])
    refine ⟨?_, ?_, ?_, ?_, ?_⟩
    · rw [hov]
      split_ifs <;> simp [hnex]
    · rw [hov]
      by_cases hs : 80 ≤ ResumeVerifier.score_of_checks (ResumeVerifier.resume_checks r)
      · rw [if_pos hs]
        exact iff_of_true rfl ⟨hall, hs⟩
      · rw [if_neg hs]
        constructor
        · intro h
          exact absurd h (by simp)
        · intro h
          exact absurd h.2 hs
    · rw [hov]
      by_cases hs : 80 ≤ ResumeVerifier.score_of_checks (ResumeVerifier.resume_checks r)
      · rw [if_pos hs]
        constructor
        · intro h
          exact absurd h (by simp)
        · intro h
          exact absurd hs (not_le.mpr h.2)
      · rw [if_neg hs]
        exact iff_of_true rfl ⟨hall, lt_of_not_ge hs⟩
    · intro hmail
      have hst := verify_contact_failed r hmail
      exact absurd (hany.mpr ⟨_, verify_contact_mem r, hst⟩) (by simp [hA])
    · rw [har, hov]
      split_ifs <;> simp

/-- Witness for C4: the empty resume payload has no email and the gate fails. -/
theorem verify_gate_spec_witness :
    ResumeVerifier.optMissing
        (ResumeVerifier.Resume.mk none none none none none none).email = true ∧
    (ResumeVerifier.verify ⟨none, none, none, none, none, none⟩).overall_status =
      ResumeVerifier.VStatus.failed :=
  ⟨by decide, (verify_gate_spec _).2.2.2.1 (by decide)⟩


/-- Helper: the diversity scan leaves its accumulators unchanged when no
statement is classified. -/
theorem diversity_scan_none (l : List Str)
    (h : ∀ b ∈ l, MetricDiversifier.classify_metric b = none) :
    ∀ i dist cls, MetricDiversifier.diversity_scan i l dist cls = (dist, cls) := by
  induction l with
  | nil => intro i dist cls; rfl
  | cons b t ih =>
    intro i dist cls
    have hb := h b (List.mem_cons_self b t)
    simp only [MetricDiversifier.diversity_scan, hb]
    exact ih (fun x hx => h x (List.mem_cons_of_mem b hx)) _ _ _

/-- Helper: when every statement classifies as quality, the distribution is a
single quality entry counting them all. -/
theorem diversity_scan_quality (l : List Str)
    (h : ∀ b ∈ l, MetricDiversifier.classify_metric b = some "quality") :
    ∀ i k cls,
      (MetricDiversifier.diversity_scan i l [("quality", k)] cls).1 =
        [("quality", k + l.length)] := by
  induction l with
  | nil => intro i k cls; rfl
  | cons b t ih =>
    intro i k cls
    have hb := h b (List.mem_cons_self b t)
    have hbump : MetricDiversifier.bump_count "quality" [("quality", k)] =
        [("quality", k + 1)] := by
      simp [MetricDiversifier.bump_count]
    simp only [MetricDiversifier.diversity_scan, hb, hbump]
    rw [ih (fun x hx => h x (List.mem_cons_of_mem b hx)) _ _ _]
    rw [List.length_cons, show k + 1 + t.length = k + (t.length + 1) from by omega]

/-- C9 counterexample: five statements each containing a bare percentage and
nothing else match none of the five metric-type patterns, so the diversifier
classifies nothing, reports diversity_score = 0 and emits no warning — not
the claimed 20.0 with a percentage warning. -/
theorem metric_diversifier_bare_percentage_cex :
    MetricDiversifier.classify_metric "Cut costs by 40%".toList = none ∧
    (MetricDiversifier.check_diversity
      (List.replicate 5 "Cut costs by 40%".toList)).diversity_score = 0 ∧
    (MetricDiversifier.check_diversity
      (List.replicate 5 "Cut costs by 40%".toList)).warnings = [] := by
  have hc : MetricDiversifier.classify_metric "Cut costs by 40%".toList = none := by decide
  have hscan : MetricDiversifier.diversity_scan 0
      (List.replicate 5 "Cut costs by 40%".toList) [] [] = ([], []) :=
    diversity_scan_none _ (by decide) _ _ _
  refine ⟨hc, ?_, ?_⟩
  · simp only [MetricDiversifier.check_diversity]
    rw [hscan]
    norm_num [round1]
  · simp only [MetricDiversifier.check_diversity]
    rw [hscan]
    simp

/-- C9 (amended): the classifier tests the five types in the fixed order time,
volume, frequency, scope, quality with first match winning, but it has no
percentage category: five statements whose percentage matches no pattern are
left unclassified (diversity_score 0, no warnings), while five statements
whose percentage sits in a quality context all classify as quality, giving
diversity_score = 20.0 and a warning that Quality metrics appear 5 times. -/
theorem check_diversity_five_spec (bs : List Str) (h5 : bs.length = 5) :
    ((∀ b ∈ bs, MetricDiversifier.classify_metric b = none) →
      (MetricDiversifier.check_diversity bs).diversity_score = 0 ∧
      (MetricDiversifier.check_diversity bs).warnings = []) ∧
    ((∀ b ∈ bs, MetricDiversifier.classify_metric b = some "quality") →
      (MetricDiversifier.check_diversity bs).diversity_score = 20 ∧
      (MetricDiversifier.check_diversity bs).warnings =
        ["⚠️ Quality metrics appear 5 times (recommended max: 2)"]) := by
  constructor
  · intro hnone
    have hscan := diversity_scan_none bs hnone 0 [] []
    constructor
    · simp only [MetricDiversifier.check_diversity, hscan]
      norm_num [round1]
    · simp [MetricDiversifier.check_diversity, hscan]
  · intro hq
    have hdist : (MetricDiversifier.diversity_scan 0 bs [] []).1 = [("quality", 5)] := by
      cases bs with
      | nil => simp at h5
      | cons b t =>
        have hb := hq b (List.mem_cons_self b t)
        have hbump : MetricDiversifier.bump_count "quality" [] = [("quality", 1)] := rfl
        simp only [MetricDiversifier.diversity_scan, hb, MetricDiversifier.bump_count]
        rw [diversity_scan_quality t (fun x hx => hq x (List.mem_cons_of_mem b hx)) _ _ _]
        simp only [List.length_cons] at h5
        rw [show 1 + t.length = 5 from by omega]
    have heta : MetricDiversifier.diversity_scan 0 bs [] [] =
        ((MetricDiversifier.diversity_scan 0 bs [] []).1,
         (MetricDiversifier.diversity_scan 0 bs [] []).2) := rfl
    constructor
    · simp only [MetricDiversifier.check_diversity]
      rw [heta, hdist]
      have hr : round ((10 : ℚ) * (((([("quality", 5)] : List (String × Nat)).length : ℚ)) /
          5 * 100)) = 200 := by
        refine round_eq_of _ 200 ?_ ?_ <;> norm_num
      simp only [round1, hr]
      norm_num
    · simp only [MetricDiversifier.check_diversity]
      rw [heta, hdist]
      decide

/-- Witness for C9: five copies of a quality-context percentage statement. -/
theorem check_diversity_five_spec_witness :
    (List.replicate 5 "Achieved 40% increase in revenue".toList).length = 5 ∧
    (∀ b ∈ List.replicate 5 "Achieved 40% increase in revenue".toList,
      MetricDiversifier.classify_metric b = some "quality") ∧
    ((MetricDiversifier.check_diversity
        (List.replicate 5 "Achieved 40% increase in revenue".toList)).diversity_score = 20 ∧
     (MetricDiversifier.check_diversity
        (List.replicate 5 "Achieved 40% increase in revenue".toList)).warnings =
       ["⚠️ Quality metrics appear 5 times (recommended max: 2)"]) :=
  ⟨by decide, by decide,
   (check_diversity_five_spec _ (by decide)).2 (by decide)⟩


/-- Helper: rounding to two decimals moves a rational by at most 1/200. -/
theorem round2_abs_le (q : ℚ) : |round2 q - q| ≤ 1 / 200 := by
  have h := abs_sub_round (100 * q)
  rw [abs_sub_comm] at h
  rw [round2]
  have he : (round (100 * q) : ℚ) / 100 - q = ((round (100 * q) : ℚ) - 100 * q) / 100 := by
    ring
  rw [he, abs_div]
  have h100 : |(100 : ℚ)| = 100 := by norm_num
  rw [h100]
  linarith

/-- Helper: the sum of a list rounded entrywise to two decimals differs from
the exact sum by at most length / 200. -/
theorem round2_list_sum_le (l : List ℚ) :
    |(l.map round2).sum - l.sum| ≤ (l.length : ℚ) * (1 / 200) := by
  induction l with
  | nil => simp
  | cons x xs ih =>
    simp only [List.map_cons, List.sum_cons, List.length_cons]
    push_cast
    have he : round2 x + (xs.map round2).sum - (x + xs.sum) =
        (round2 x - x) + ((xs.map round2).sum - xs.sum) := by ring
    rw [he]
    calc |(round2 x - x) + ((xs.map round2).sum - xs.sum)|
        ≤ |round2 x - x| + |(xs.map round2).sum - xs.sum| := abs_add _ _
      _ ≤ 1 / 200 + (xs.length : ℚ) * (1 / 200) := add_le_add (round2_abs_le x) ih
      _ = ((xs.length : ℚ) + 1) * (1 / 200) := by ring

/-- Helper: sums distribute over entrywise division. -/
theorem sum_map_div (l : List ℚ) (T : ℚ) :
    (l.map (fun x => x / T)).sum = l.sum / T := by
  induction l with
  | nil => simp
  | cons x xs ih => simp [ih, add_div]

/-- Helper: casting a sum of naturals to the rationals. -/
theorem sum_map_natCast {α : Type} (f : α → Nat) (l : List α) :
    (l.map (fun a => ((f a : Nat) : ℚ))).sum = ((l.map f).sum : ℚ) := by
  induction l with
  | nil => simp
  | cons x xs ih => simp [ih]

/-- Helper: the sum of a constant list. -/
theorem sum_map_constQ {α : Type} (l : List α) (q : ℚ) :
    (l.map (fun _ => q)).sum = (l.length : ℚ) * q := by
  induction l with
  | nil => simp
  | cons x xs ih =>
    simp only [List.map_cons, List.sum_cons, List.length_cons, ih]
    push_cast
    ring

/-- Helper: closed form of `calculate_competency_weights` with the mention
counts named. -/
theorem calculate_competency_weights_eq (jd : Str) (areas : List (String × List Str)) :
    BulletFramework.calculate_competency_weights jd areas =
      sortDescBy (fun p => p.2)
        (if 0 < (areas.map (fun a => BulletFramework.area_mentions (lowerStr jd) a.2)).sum then
           areas.map (fun a => (a.1,
             round2 ((BulletFramework.area_mentions (lowerStr jd) a.2 : ℚ) /
               ((areas.map (fun a2 =>
                 BulletFramework.area_mentions (lowerStr jd) a2.2)).sum : ℚ))))
         else areas.map (fun a => (a.1, (1 : ℚ) / (areas.length : ℚ)))) := by
  unfold BulletFramework.calculate_competency_weights
  simp only [List.map_map]
  rfl

/-- C1 counterexample: three areas each mentioned once make every weight
`round(1/3, 2) = 0.33`, so the weights sum to 0.99, farther than 1e-6 from 1. -/
theorem calculate_competency_weights_sum_cex :
    ((BulletFramework.calculate_competency_weights "alpha beta gamma".toList
        [("a", strs ["alpha"]), ("b", strs ["beta"]), ("c", strs ["gamma"])]).map
        Prod.snd).sum = 99 / 100 ∧
    ¬(|(99 / 100 : ℚ) - 1| ≤ 1 / 1000000) := by
  constructor
  · rw [calculate_competency_weights_eq]
    have hm1 : BulletFramework.area_mentions (lowerStr "alpha beta gamma".toList)
        (strs ["alpha"]) = 1 := by decide
    have hm2 : BulletFramework.area_mentions (lowerStr "alpha beta gamma".toList)
        (strs ["beta"]) = 1 := by decide
    have hm3 : BulletFramework.area_mentions (lowerStr "alpha beta gamma".toList)
        (strs ["gamma"]) = 1 := by decide
    simp only [List.map_cons, List.map_nil, List.sum_cons, List.sum_nil, hm1, hm2, hm3]
    norm_num
    have hr : round2 ((1 : ℚ) / 3) = 33 / 100 := by
      have h : round ((100 : ℚ) * (1 / 3)) = 33 := round_eq_of _ 33 (by norm_num) (by norm_num)
      rw [round2, h]
      norm_num
    have hlt : ¬(round2 ((1 : ℚ) / 3) < round2 ((1 : ℚ) / 3)) := lt_irrefl _
    simp only [sortDescBy, insDesc, hlt, if_false]
    simp only [List.map_cons, List.map_nil, List.sum_cons, List.sum_nil, hr]
    norm_num
  · have habs : |(99 / 100 : ℚ) - 1| = 1 / 100 := by
      rw [abs_of_neg (by norm_num)]
      norm_num
    rw [habs]
    norm_num

/-- C1 (amended): the weight vector is non-empty with one entry per area; when
no keyword matched anywhere the weights are exactly the uniform split (summing
to exactly 1); when some keyword matched, the entries are, up to the final
sort, the areas paired with `round(mentions / total, 2)` — so the sum lies
within (number of areas) / 200 of 1, rather than within 1e-6. -/
theorem calculate_competency_weights_spec (jd : Str) (areas : List (String × List Str))
    (h : areas ≠ []) :
    BulletFramework.calculate_competency_weights jd areas ≠ [] ∧
    (BulletFramework.calculate_competency_weights jd areas).length = areas.length ∧
    ((areas.map (fun a => BulletFramework.area_mentions (lowerStr jd) a.2)).sum = 0 →
      (∀ w ∈ BulletFramework.calculate_competency_weights jd areas,
        w.2 = 1 / (areas.length : ℚ)) ∧
      ((BulletFramework.calculate_competency_weights jd areas).map Prod.snd).sum = 1) ∧
    (0 < (areas.map (fun a => BulletFramework.area_mentions (lowerStr jd) a.2)).sum →
      (BulletFramework.calculate_competency_weights jd areas).Perm
        (areas.map (fun a => (a.1,
          round2 ((BulletFramework.area_mentions (lowerStr jd) a.2 : ℚ) /
            ((areas.map (fun a2 =>
              BulletFramework.area_mentions (lowerStr jd) a2.2)).sum : ℚ))))) ∧
      |((BulletFramework.calculate_competency_weights jd areas).map Prod.snd).sum - 1| ≤
        (areas.length : ℚ) / 200) := by
  have heq := calculate_competency_weights_eq jd areas
  have hlen0 : areas.length ≠ 0 := fun hz => h (List.length_eq_zero.mp hz)
  by_cases h0 : 0 < (areas.map (fun a => BulletFramework.area_mentions (lowerStr jd) a.2)).sum
  · rw [if_pos h0] at heq
    have hperm : (BulletFramework.calculate_competency_weights jd areas).Perm
        (areas.map (fun a => (a.1,
          round2 ((BulletFramework.area_mentions (lowerStr jd) a.2 : ℚ) /
            ((areas.map (fun a2 =>
              BulletFramework.area_mentions (lowerStr jd) a2.2)).sum : ℚ))))) := by
      rw [heq]
      exact sortDescBy_perm _ _
    have hlen : (BulletFramework.calculate_competency_weights jd areas).length =
        areas.length := by
      rw [hperm.length_eq, List.length_map]
    refine ⟨?_, hlen, ?_, ?_⟩
    · intro hnil
      rw [hnil] at hlen
      exact hlen0 hlen.symm
    · intro hz
      rw [hz] at h0
      exact absurd h0 (lt_irrefl 0)
    · intro _
      refine ⟨hperm, ?_⟩
      have hsum : ((BulletFramework.calculate_competency_weights jd areas).map Prod.snd).sum =
          ((areas.map (fun a => (a.1,
            round2 ((BulletFramework.area_mentions (lowerStr jd) a.2 : ℚ) /
              ((areas.map (fun a2 =>
                BulletFramework.area_mentions (lowerStr jd) a2.2)).sum : ℚ))))).map
            Prod.snd).sum :=
        (hperm.map Prod.snd).sum_eq
      rw [hsum]
      have hTpos : (0 : ℚ) <
          ((areas.map (fun a2 =>
            BulletFramework.area_mentions (lowerStr jd) a2.2)).sum : ℚ) := by
        exact_mod_cast h0
      have h1 : ((areas.map (fun a => (a.1,
          round2 ((BulletFramework.area_mentions (lowerStr jd) a.2 : ℚ) /
            ((areas.map (fun a2 =>
              BulletFramework.area_mentions (lowerStr jd) a2.2)).sum : ℚ))))).map Prod.snd) =
          (areas.map (fun a => ((BulletFramework.area_mentions (lowerStr jd) a.2 : ℚ) /
            ((areas.map (fun a2 =>
              BulletFramework.area_mentions (lowerStr jd) a2.2)).sum : ℚ)))).map round2 := by
        simp only [List.map_map]
        rfl
      rw [h1]
      have h2 : (areas.map (fun a => ((BulletFramework.area_mentions (lowerStr jd) a.2 : ℚ) /
          ((areas.map (fun a2 =>
            BulletFramework.area_mentions (lowerStr jd) a2.2)).sum : ℚ)))) =
          ((areas.map (fun a => ((BulletFramework.area_mentions (lowerStr jd) a.2 : Nat) : ℚ))).map
            (fun x => x / ((areas.map (fun a2 =>
              BulletFramework.area_mentions (lowerStr jd) a2.2)).sum : ℚ))) := by
        simp only [List.map_map]
        rfl
      have hlsum : (areas.map (fun a => ((BulletFramework.area_mentions (lowerStr jd) a.2 : ℚ) /
          ((areas.map (fun a2 =>
            BulletFramework.area_mentions (lowerStr jd) a2.2)).sum : ℚ)))).sum = 1 := by
        rw [h2, sum_map_div, sum_map_natCast]
        exact div_self (ne_of_gt hTpos)
      have hbound := round2_list_sum_le
        (areas.map (fun a => ((BulletFramework.area_mentions (lowerStr jd) a.2 : ℚ) /
          ((areas.map (fun a2 =>
            BulletFramework.area_mentions (lowerStr jd) a2.2)).sum : ℚ))))
      rw [hlsum, List.length_map] at hbound
      have hq : (areas.length : ℚ) * (1 / 200) = (areas.length : ℚ) / 200 := by ring
      linarith
  · have hz : (areas.map (fun a =>
        BulletFramework.area_mentions (lowerStr jd) a.2)).sum = 0 := by omega
    rw [if_neg h0] at heq
    have hperm : (BulletFramework.calculate_competency_weights jd areas).Perm
        (areas.map (fun a => (a.1, (1 : ℚ) / (areas.length : ℚ)))) := by
      rw [heq]
      exact sortDescBy_perm _ _
    have hlen : (BulletFramework.calculate_competency_weights jd areas).length =
        areas.length := by
      rw [hperm.length_eq, List.length_map]
    refine ⟨?_, hlen, ?_, ?_⟩
    · intro hnil
      rw [hnil] at hlen
      exact hlen0 hlen.symm
    · intro _
      constructor
      · intro w hw
        obtain ⟨a, _, rfl⟩ := List.mem_map.mp (hperm.mem_iff.mp hw)
        rfl
      · rw [(hperm.map Prod.snd).sum_eq]
        have h1 : ((areas.map (fun a => (a.1, (1 : ℚ) / (areas.length : ℚ)))).map Prod.snd) =
            areas.map (fun _ => (1 : ℚ) / (areas.length : ℚ)) := by
          simp only [List.map_map]
          rfl
        rw [h1, sum_map_constQ, mul_one_div]
        exact div_self (Nat.cast_ne_zero.mpr hlen0)
    · intro hpos
      rw [hz] at hpos
      exact absurd hpos (lt_irrefl 0)

/-- Witness for C1: one area with one matching keyword. -/
theorem calculate_competency_weights_spec_witness :
    ([("a", strs ["alpha"])] : List (String × List Str)) ≠ [] ∧
    (BulletFramework.calculate_competency_weights "alpha".toList [("a", strs ["alpha"])] ≠ [] ∧
     (BulletFramework.calculate_competency_weights "alpha".toList
       [("a", strs ["alpha"])]).length = ([("a", strs ["alpha"])] : List (String × List Str)).length ∧
     ((([("a", strs ["alpha"])] : List (String × List Str)).map (fun a =>
         BulletFramework.area_mentions (lowerStr "alpha".toList) a.2)).sum = 0 →
       (∀ w ∈ BulletFramework.calculate_competency_weights "alpha".toList [("a", strs ["alpha"])],
         w.2 = 1 / ((([("a", strs ["alpha"])] : List (String × List Str)).length : ℚ))) ∧
       ((BulletFramework.calculate_competency_weights "alpha".toList
         [("a", strs ["alpha"])]).map Prod.snd).sum = 1) ∧
     (0 < (([("a", strs ["alpha"])] : List (String × List Str)).map (fun a =>
         BulletFramework.area_mentions (lowerStr "alpha".toList) a.2)).sum →
       (BulletFramework.calculate_competency_weights "alpha".toList
         [("a", strs ["alpha"])]).Perm
         (([("a", strs ["alpha"])] : List (String × List Str)).map (fun a => (a.1,
           round2 ((BulletFramework.area_mentions (lowerStr "alpha".toList) a.2 : ℚ) /
             ((([("a", strs ["alpha"])] : List (String × List Str)).map (fun a2 =>
               BulletFramework.area_mentions (lowerStr "alpha".toList) a2.2)).sum : ℚ))))) ∧
       |((BulletFramework.calculate_competency_weights "alpha".toList
           [("a", strs ["alpha"])]).map Prod.snd).sum - 1| ≤
         ((([("a", strs ["alpha"])] : List (String × List Str)).length : ℚ)) / 200)) :=
  ⟨by decide, calculate_competency_weights_spec "alpha".toList [("a", strs ["alpha"])] (by decide)⟩


/-- Helper: an area none of whose keywords occurs in the posting yields
weight 0 and a perfect match score. -/
theorem assess_competency_unmentioned (name : String) (w : ℚ) (kws : List Str)
    (jdl : Str) (sk : List Str) (ex : Str)
    (h : kws.filter (fun kw => containsStr jdl (lowerStr kw)) = []) :
    JDAssessor.assess_competency name w kws jdl sk ex = ⟨name, 0, 100, [], [], []⟩ := by
  unfold JDAssessor.assess_competency
  simp [h]

/-- Helper: a mentioned area's weight is the base weight scaled by the
mentioned fraction of its keywords. -/
theorem assess_competency_weight_mentioned (name : String) (w : ℚ) (kws : List Str)
    (jdl : Str) (sk : List Str) (ex : Str)
    (h : kws.filter (fun kw => containsStr jdl (lowerStr kw)) ≠ []) :
    (JDAssessor.assess_competency name w kws jdl sk ex).weight =
      w * (((kws.filter (fun kw => containsStr jdl (lowerStr kw))).length : ℚ) /
        (kws.length : ℚ)) := by
  unfold JDAssessor.assess_competency
  simp [h]

/-- Helper: each adjusted weight is at most the base weight. -/
theorem assess_competency_weight_le (name : String) (w : ℚ) (kws : List Str)
    (jdl : Str) (sk : List Str) (ex : Str) (hw : 0 ≤ w) :
    (JDAssessor.assess_competency name w kws jdl sk ex).weight ≤ w := by
  by_cases hm : kws.filter (fun kw => containsStr jdl (lowerStr kw)) = []
  · rw [assess_competency_unmentioned name w kws jdl sk ex hm]
    simpa using hw
  · rw [assess_competency_weight_mentioned name w kws jdl sk ex hm]
    have hlen : (kws.filter (fun kw => containsStr jdl (lowerStr kw))).length ≤
        kws.length := List.length_filter_le _ _
    have hk0 : 0 < kws.length := by
      cases kws with
      | nil => exact absurd rfl hm
      | cons a t => simp
    have hfrac : (((kws.filter (fun kw => containsStr jdl (lowerStr kw))).length : ℚ) /
        (kws.length : ℚ)) ≤ 1 := by
      rw [div_le_one (by exact_mod_cast hk0)]
      exact_mod_cast hlen
    calc w * (((kws.filter (fun kw => containsStr jdl (lowerStr kw))).length : ℚ) /
          (kws.length : ℚ))
        ≤ w * 1 := mul_le_mul_of_nonneg_left hfrac hw
      _ = w := mul_one w

/-- C8 counterexample: with the posting "python" only the technical area is
mentioned, and the weights of the mentioned areas sum to 1/68, not to 1 — the
per-area weights are scaled base weights, not re-normalized over the
mentioned areas. -/
theorem assess_competency_not_renormalized_cex :
    ((JDAssessor.competency_matches_for "python".toList [] []).map
      (fun m => m.weight)).sum = 1 / 68 ∧ ((1 : ℚ) / 68) ≠ 1 := by
  constructor
  · unfold JDAssessor.competency_matches_for JDAssessor.COMPETENCY_AREAS
    simp only [List.map_cons, List.map_nil, List.sum_cons, List.sum_nil]
    have h1 : (JDAssessor.assess_competency "technical_skills" (1/4) JDAssessor.TECH_KEYWORDS
        (lowerStr "python".toList) [] []).weight = 1 / 68 := by
      rw [assess_competency_weight_mentioned _ _ _ _ _ _ (by decide)]
      have hf : JDAssessor.TECH_KEYWORDS.filter (fun kw =>
          containsStr (lowerStr "python".toList) (lowerStr kw)) = ["python".toList] := by
        decide
      have hk : JDAssessor.TECH_KEYWORDS.length = 17 := by decide
      rw [hf, hk]
      norm_num
    have h2 : (JDAssessor.assess_competency "leadership" (1/5) JDAssessor.LEADERSHIP_KEYWORDS
        (lowerStr "python".toList) [] []).weight = 0 := by
      rw [assess_competency_unmentioned _ _ _ _ _ _ (by decide)]
    have h3 : (JDAssessor.assess_competency "product_strategy" (1/5) JDAssessor.PRODUCT_KEYWORDS
        (lowerStr "python".toList) [] []).weight = 0 := by
      rw [assess_competency_unmentioned _ _ _ _ _ _ (by decide)]
    have h4 : (JDAssessor.assess_competency "communication" (3/20)
        JDAssessor.COMMUNICATION_KEYWORDS (lowerStr "python".toList) [] []).weight = 0 := by
      rw [assess_competency_unmentioned _ _ _ _ _ _ (by decide)]
    have h5 : (JDAssessor.assess_competency "execution" (1/5) JDAssessor.EXECUTION_KEYWORDS
        (lowerStr "python".toList) [] []).weight = 0 := by
      rw [assess_competency_unmentioned _ _ _ _ _ _ (by decide)]
    rw [h1, h2, h3, h4, h5]
    norm_num
  · norm_num

/-- C8 (amended): an area with no keyword in the posting yields weight 0 and
match_score 100 (never penalizing); a mentioned area's weight is
`base_weight * mentioned / total_keywords`; the weights are not re-normalized
— over all areas they sum to at most 1 (and generally to less). -/
theorem assess_competency_spec (jd : Str) (skills : List Str) (expText : Str) :
    (∀ (name : String) (w : ℚ) (kws : List Str),
      kws.filter (fun kw => containsStr (lowerStr jd) (lowerStr kw)) = [] →
      JDAssessor.assess_competency name w kws (lowerStr jd) skills expText =
        ⟨name, 0, 100, [], [], []⟩) ∧
    (∀ (name : String) (w : ℚ) (kws : List Str),
      kws.filter (fun kw => containsStr (lowerStr jd) (lowerStr kw)) ≠ [] →
      (JDAssessor.assess_competency name w kws (lowerStr jd) skills expText).weight =
        w * (((kws.filter (fun kw => containsStr (lowerStr jd) (lowerStr kw))).length : ℚ) /
          (kws.length : ℚ))) ∧
    ((JDAssessor.competency_matches_for jd skills expText).map (fun m => m.weight)).sum ≤ 1 := by
  refine ⟨fun name w kws hm => assess_competency_unmentioned name w kws _ skills expText hm,
    fun name w kws hm => assess_competency_weight_mentioned name w kws _ skills expText hm,
    ?_⟩
  have hb : ∀ a ∈ JDAssessor.COMPETENCY_AREAS,
      (JDAssessor.assess_competency a.1 a.2.1 a.2.2 (lowerStr jd) skills expText).weight ≤
        a.2.1 := by
    intro a ha
    refine assess_competency_weight_le a.1 a.2.1 a.2.2 _ skills expText ?_
    fin_cases ha <;> norm_num
  calc ((JDAssessor.competency_matches_for jd skills expText).map (fun m => m.weight)).sum
      = (JDAssessor.COMPETENCY_AREAS.map (fun a =>
          (JDAssessor.assess_competency a.1 a.2.1 a.2.2 (lowerStr jd) skills
            expText).weight)).sum := by
        unfold JDAssessor.competency_matches_for
        rw [List.map_map]
        rfl
    _ ≤ (JDAssessor.COMPETENCY_AREAS.map (fun a => a.2.1)).sum := List.sum_le_sum hb
    _ = 1 := by
        unfold JDAssessor.COMPETENCY_AREAS
        simp only [List.map_cons, List.map_nil, List.sum_cons, List.sum_nil]
        norm_num

/-- Witness for C8: posting "python" with an unmentioned and a mentioned area. -/
theorem assess_competency_spec_witness :
    (JDAssessor.LEADERSHIP_KEYWORDS.filter (fun kw =>
      containsStr (lowerStr "python".toList) (lowerStr kw)) = []) ∧
    JDAssessor.assess_competency "leadership" (1/5) JDAssessor.LEADERSHIP_KEYWORDS
      (lowerStr "python".toList) [] [] = ⟨"leadership", 0, 100, [], [], []⟩ ∧
    (JDAssessor.TECH_KEYWORDS.filter (fun kw =>
      containsStr (lowerStr "python".toList) (lowerStr kw)) ≠ []) ∧
    (JDAssessor.assess_competency "technical_skills" (1/4) JDAssessor.TECH_KEYWORDS
        (lowerStr "python".toList) [] []).weight =
      (1/4 : ℚ) * (((JDAssessor.TECH_KEYWORDS.filter (fun kw =>
        containsStr (lowerStr "python".toList) (lowerStr kw))).length : ℚ) /
        (JDAssessor.TECH_KEYWORDS.length : ℚ)) ∧
    ((JDAssessor.competency_matches_for "python".toList [] []).map
      (fun m => m.weight)).sum ≤ 1 :=
  ⟨by decide,
   (assess_competency_spec "python".toList [] []).1 "leadership" (1/5)
     JDAssessor.LEADERSHIP_KEYWORDS (by decide),
   by decide,
   (assess_competency_spec "python".toList [] []).2.1 "technical_skills" (1/4)
     JDAssessor.TECH_KEYWORDS (by decide),
   (assess_competency_spec "python".toList [] []).2.2⟩


/-- Helper: scoring preserves the bullet ids, in order. -/
theorem score_bullets_map_id (bs : List BulletLibrary.NormBullet)
    (ws : List (String × ℚ)) :
    (BulletLibrary.score_bullets bs ws).map (fun b => b.id) = bs.map (fun b => b.id) := by
  unfold BulletLibrary.score_bullets
  rw [List.map_map]
  rfl

/-- Helper: when the whole candidate list fits under the target, the backfill
loop appends every candidate — without re-checking ids. -/
theorem backfill_all (total : Nat) :
    ∀ (l : List BulletLibrary.ScoredBullet) (sel : List BulletLibrary.SelectedBullet)
      (ids : List Str), sel.length + l.length ≤ total →
      BulletLibrary.backfill total l sel ids = sel ++ l.map BulletLibrary.backfill_entry := by
  intro l
  induction l with
  | nil => intro sel ids _; simp [BulletLibrary.backfill]
  | cons b t ih =>
    intro sel ids h
    simp only [List.length_cons] at h
    unfold BulletLibrary.backfill
    rw [if_neg (by omega)]
    rw [ih (sel ++ [BulletLibrary.backfill_entry b]) (ids ++ [b.id]) (by simp; omega)]
    simp

/-- Helper: a list permuting a two-element constant list equals it. -/
theorem perm_two_same {α : Type} (x : α) (l : List α) (h : l.Perm [x, x]) : l = [x, x] := by
  have hlen : l.length = 2 := by simpa using h.length_eq
  obtain ⟨a, t, rfl⟩ : ∃ a t, l = a :: t := by
    cases l with
    | nil => simp at hlen
    | cons a t => exact ⟨a, t, rfl⟩
  obtain ⟨b, t2, rfl⟩ : ∃ b t2, t = b :: t2 := by
    cases t with
    | nil => simp at hlen
    | cons b t2 => exact ⟨b, t2, rfl⟩
  obtain rfl : t2 = [] := by
    cases t2 with
    | nil => rfl
    | cons u v => simp at hlen
  have ha : a ∈ [x, x] := h.mem_iff.mp (by simp)
  have hb : b ∈ [x, x] := h.mem_iff.mp (by simp)
  simp at ha hb
  rw [ha, hb]

/-- C3 (code-bug evidence): two library bullets whose texts share their first
50 characters receive the same derived id; requesting 2 bullets drives the
selection through the backfill loop, which returns that id twice within one
call, violating the no-duplicate-ids contract. -/
theorem select_for_job_duplicate_ids :
    ((BulletLibrary.select_for_job
        [⟨none, List.replicate 50 'a' ++ ['x'], [], none⟩,
         ⟨none, List.replicate 50 'a' ++ ['y'], [], none⟩] [] 2).selected_bullets.map
      (fun b => b.id)) = [List.replicate 50 'a', List.replicate 50 'a'] := by
  have hnorm : BulletLibrary.normalize_bullets
      [⟨none, List.replicate 50 'a' ++ ['x'], [], none⟩,
       ⟨none, List.replicate 50 'a' ++ ['y'], [], none⟩] =
      [⟨List.replicate 50 'a', List.replicate 50 'a' ++ ['x'], [], none⟩,
       ⟨List.replicate 50 'a', List.replicate 50 'a' ++ ['y'], [], none⟩] := by decide
  have hw : BulletLibrary.compute_competency_weights [] =
      [("technical_skills", (1 : ℚ)/4), ("leadership", 1/5), ("product_strategy", 1/5),
       ("communication", 3/20), ("execution", 1/5)] := by
    have hm1 : (JDAssessor.TECH_KEYWORDS.filter (fun kw =>
        containsStr (lowerStr ([] : Str)) (lowerStr kw))).length = 0 := by decide
    have hm2 : (JDAssessor.LEADERSHIP_KEYWORDS.filter (fun kw =>
        containsStr (lowerStr ([] : Str)) (lowerStr kw))).length = 0 := by decide
    have hm3 : (JDAssessor.PRODUCT_KEYWORDS.filter (fun kw =>
        containsStr (lowerStr ([] : Str)) (lowerStr kw))).length = 0 := by decide
    have hm4 : (JDAssessor.COMMUNICATION_KEYWORDS.filter (fun kw =>
        containsStr (lowerStr ([] : Str)) (lowerStr kw))).length = 0 := by decide
    have hm5 : (JDAssessor.EXECUTION_KEYWORDS.filter (fun kw =>
        containsStr (lowerStr ([] : Str)) (lowerStr kw))).length = 0 := by decide
    unfold BulletLibrary.compute_competency_weights
    simp only [JDAssessor.COMPETENCY_AREAS, List.map_cons, List.map_nil, hm1, hm2, hm3,
      hm4, hm5, List.sum_cons, List.sum_nil]
    norm_num
  have hd : BulletLibrary.calculate_distribution
      [("technical_skills", (1 : ℚ)/4), ("leadership", 1/5), ("product_strategy", 1/5),
       ("communication", 3/20), ("execution", 1/5)] 2 = [] := by
    have h12 : (⌊(1/2 : ℚ)⌋) = 0 := Int.floor_eq_zero_iff.mpr ⟨by norm_num, by norm_num⟩
    have h25 : (⌊(2/5 : ℚ)⌋) = 0 := Int.floor_eq_zero_iff.mpr ⟨by norm_num, by norm_num⟩
    have h310 : (⌊(3/10 : ℚ)⌋) = 0 := Int.floor_eq_zero_iff.mpr ⟨by norm_num, by norm_num⟩
    unfold BulletLibrary.calculate_distribution
    norm_num [List.filter_cons, List.filter_nil, h12, h25, h310]
  unfold BulletLibrary.select_for_job
  rw [hnorm]
  rw [if_neg (by simp)]
  rw [hw]
  show (BulletLibrary.select_by_distribution
      (BulletLibrary.score_bullets
        [⟨List.replicate 50 'a', List.replicate 50 'a' ++ ['x'], [], none⟩,
         ⟨List.replicate 50 'a', List.replicate 50 'a' ++ ['y'], [], none⟩]
        [("technical_skills", (1 : ℚ)/4), ("leadership", 1/5), ("product_strategy", 1/5),
         ("communication", 3/20), ("execution", 1/5)])
      (BulletLibrary.calculate_distribution
        [("technical_skills", (1 : ℚ)/4), ("leadership", 1/5), ("product_strategy", 1/5),
         ("communication", 3/20), ("execution", 1/5)] 2) 2).map (fun b => b.id) =
    [List.replicate 50 'a', List.replicate 50 'a']
  rw [hd]
  set scored := BulletLibrary.score_bullets
      [⟨List.replicate 50 'a', List.replicate 50 'a' ++ ['x'], [], none⟩,
       ⟨List.replicate 50 'a', List.replicate 50 'a' ++ ['y'], [], none⟩]
      [("technical_skills", (1 : ℚ)/4), ("leadership", 1/5), ("product_strategy", 1/5),
       ("communication", 3/20), ("execution", 1/5)] with hscored
  have hids : scored.map (fun b => b.id) =
      [List.replicate 50 'a', List.replicate 50 'a'] := by
    rw [hscored, score_bullets_map_id]
    decide
  have hslen : scored.length = 2 := by
    have := congrArg List.length hids
    simpa using this
  unfold BulletLibrary.select_by_distribution
  simp only [List.foldl_nil]
  rw [if_pos (by simp)]
  have hfilter : scored.filter (fun b => !(([] : List Str).contains b.id)) = scored :=
    List.filter_eq_self.mpr (fun a _ => rfl)
  rw [hfilter]
  have hsortlen : (sortDescBy (fun b => b.best_score) scored).length = 2 := by
    rw [(sortDescBy_perm (fun b => b.best_score) scored).length_eq, hslen]
  rw [backfill_all 2 _ [] [] (by rw [hsortlen]; simp)]
  rw [List.nil_append, List.map_map]
  have hcomp : ((sortDescBy (fun b => b.best_score) scored).map
      ((fun b => b.id) ∘ BulletLibrary.backfill_entry)) =
      ((sortDescBy (fun b => b.best_score) scored).map (fun b => b.id)) := rfl
  rw [hcomp]
  refine perm_two_same _ _ ?_
  have hp := (sortDescBy_perm (fun b => b.best_score) scored).map (fun b => b.id)
  rw [hids] at hp
  exact hp

end AIJob
